import Mathlib

/-!
# Verification of the AMT_UI MIDI comparison core

Shallow embedding of the repository's two core modules:

* `src/utils/comparisonMetrics.ts` — note matching and similarity metrics
  (`compareMidiData`, `matchNotes`, the per-metric calculators,
  `weightedAverage`, `clamp01`);
* `src/utils/midiProcessor.ts` — decoding of parsed MIDI data into the
  normalized note-event model (`processMidi`, `parseMidiData`,
  `getNoteName`, `getMidiNote`).

JavaScript numbers are modelled as rationals (`ℚ`) wherever the source
computes with field operations only; the two helpers that take square
roots (`pearson` and `cosineSimilarity`, plus `normalizeZ`) are modelled
over `ℝ` with `Real.sqrt`.  Division by zero in the model is Lean's total
division (`x / 0 = 0`); every place where the source guards a denominator
(`|| 1`, `|| 1e-8`, `Math.max(0.05, d)`) is modelled with the explicit
guard from the source.  The source functions are total (they contain no
`throw`), so the embedded functions are total Lean functions.
-/

/-- Embeds `ProcessedNote` from `src/utils/midiProcessor.ts`.  Times,
durations and velocities are JS numbers (modelled `ℚ`); the MIDI pitch is
an integer. -/
structure ProcessedNote where
  id : String
  note : ℤ
  noteName : String
  velocity : ℚ
  startTime : ℚ
  endTime : ℚ
  duration : ℚ
  channel : ℕ
  track : ℕ
deriving DecidableEq, Repr

/-- Embeds the per-track entry of `ProcessedMidiData.tracks`. -/
structure MidiTrackData where
  name : String
  notes : List ProcessedNote
deriving DecidableEq, Repr

/-- Embeds `ProcessedMidiData.metadata`. -/
structure MidiMetadata where
  totalNotes : ℕ
  averageVelocity : ℚ
  noteRange : ℤ × ℤ
deriving DecidableEq, Repr

/-- Embeds `ProcessedMidiData` from `src/utils/midiProcessor.ts`. -/
structure ProcessedMidiData where
  notes : List ProcessedNote
  duration : ℚ
  tempo : ℚ
  timeSignature : ℚ × ℚ
  tracks : List MidiTrackData
  metadata : MidiMetadata
deriving DecidableEq, Repr

/-- Embeds the `matchWeights` record of `ComparisonConfig`. -/
structure MatchWeights where
  timing : ℚ
  pitch : ℚ
  velocity : ℚ
  duration : ℚ
deriving DecidableEq, Repr

/-- Embeds the `overallWeights` record of `ComparisonConfig`.  Field order
matches the object-literal insertion order in the source, which is the
iteration order of `Object.keys` in `weightedAverage`. -/
structure OverallWeights where
  noteAccuracy : ℚ
  timingAccuracy : ℚ
  rhythmAccuracy : ℚ
  velocityAccuracy : ℚ
  durationAccuracy : ℚ
  pitchClassSimilarity : ℚ
  densitySimilarity : ℚ
  polyphonySimilarity : ℚ
  rangeOverlap : ℚ
deriving DecidableEq, Repr

/-- Embeds `ComparisonConfig` after the `{...defaultConfig, ...cfg}` merge
in `compareMidiData`: every field present (the merge fills missing fields
from `defaultConfig`). -/
structure ComparisonConfig where
  timingToleranceSec : ℚ
  pitchToleranceSemitones : ℚ
  velocityTolerance : ℚ
  matchWeights : MatchWeights
  overallWeights : OverallWeights
  densityWindowSec : ℚ
  polyphonyWindowSec : ℚ
deriving DecidableEq, Repr

/-- Embeds `defaultConfig` from `src/utils/comparisonMetrics.ts`
(decimal literals written as exact rationals). -/
def defaultConfig : ComparisonConfig where
  timingToleranceSec := 1/10
  pitchToleranceSemitones := 0
  velocityTolerance := 10
  matchWeights := { timing := 1/2, pitch := 1/5, velocity := 1/10, duration := 1/5 }
  overallWeights :=
    { noteAccuracy := 3/10
      timingAccuracy := 1/5
      rhythmAccuracy := 3/20
      velocityAccuracy := 1/10
      durationAccuracy := 1/10
      pitchClassSimilarity := 3/40
      densitySimilarity := 1/20
      polyphonySimilarity := 1/40
      rangeOverlap := 0 }
  densityWindowSec := 1
  polyphonyWindowSec := 1/10

/-- Embeds `NoteMatchTs` from `src/utils/comparisonMetrics.ts`. -/
structure NoteMatch where
  generated : ProcessedNote
  reference : ProcessedNote
  timingError : ℚ
  pitchError : ℚ
  velocityError : ℚ
  durationError : ℚ
  matchQuality : ℚ
deriving DecidableEq, Repr

/-- Embeds `clamp01` (`Math.max(0, Math.min(1, x))`) at type `ℚ`. -/
def clamp01 (x : ℚ) : ℚ := max 0 (min 1 x)

/-- Embeds `clamp01` at type `ℝ`, for the metrics computed with square
roots. -/
noncomputable def clamp01Real (x : ℝ) : ℝ := max 0 (min 1 x)

/-- `Math.abs(gen.startTime - ref.startTime)` in `matchNotes`. -/
def timingDistance (g r : ProcessedNote) : ℚ := |g.startTime - r.startTime|

/-- `Math.abs(gen.note - ref.note)` in `matchNotes`. -/
def pitchDistance (g r : ProcessedNote) : ℚ := |(g.note : ℚ) - (r.note : ℚ)|

/-- `Math.abs(gen.duration - ref.duration)` in `matchNotes`. -/
def durationDistance (g r : ProcessedNote) : ℚ := |g.duration - r.duration|

/-- The weighted distance `timing*2.0 + pitch*0.1 + duration*0.5` from the
inner loop of `matchNotes`. -/
def noteDistance (g r : ProcessedNote) : ℚ :=
  timingDistance g r * 2 + pitchDistance g r * (1/10) + durationDistance g r * (1/2)

/-- One step of the inner loop of `matchNotes`: the running best candidate
(`bestRef`, `bestScore`) is `none` while `bestScore` is still
`POSITIVE_INFINITY` (so the first admissible candidate always wins the
strict `distance < bestScore` test).  `consumed` is the complement of the
source's `unmatchedReference` id set. -/
def pickBetter (cfg : ComparisonConfig) (g : ProcessedNote) (consumed : List String)
    (best : Option (ProcessedNote × ℚ)) (r : ProcessedNote) : Option (ProcessedNote × ℚ) :=
  if r.id ∈ consumed then best
  else if cfg.timingToleranceSec < timingDistance g r ∨
      cfg.pitchToleranceSemitones < pitchDistance g r then best
  else
    match best with
    | none => some (r, noteDistance g r)
    | some (b, s) => if noteDistance g r < s then some (r, noteDistance g r) else some (b, s)

/-- The complete inner loop of `matchNotes`: scan of all reference notes
for the best still-available candidate for `g`. -/
def findBest (cfg : ComparisonConfig) (g : ProcessedNote)
    (reference : List ProcessedNote) (consumed : List String) : Option (ProcessedNote × ℚ) :=
  reference.foldl (pickBetter cfg g consumed) none

/-- The match record built in the `if (bestRef)` block of `matchNotes`
(errors, per-factor qualities, weighted `matchQuality`). -/
def mkMatch (cfg : ComparisonConfig) (g r : ProcessedNote) : NoteMatch :=
  let timingError := |g.startTime - r.startTime|
  let pitchError := |(g.note : ℚ) - (r.note : ℚ)|
  let velocityError := |g.velocity - r.velocity|
  let durationError := |g.duration - r.duration|
  let timingQuality := max 0 (1 - timingError / cfg.timingToleranceSec)
  let pitchQuality := if pitchError = 0 then 1 else max 0 (1 - pitchError / 12)
  let velocityQuality := max 0 (1 - velocityError / 127)
  let durationQuality := max 0 (1 - durationError / max (1/20) r.duration)
  { generated := g
    reference := r
    timingError := timingError
    pitchError := pitchError
    velocityError := velocityError
    durationError := durationError
    matchQuality :=
      timingQuality * cfg.matchWeights.timing +
      pitchQuality * cfg.matchWeights.pitch +
      velocityQuality * cfg.matchWeights.velocity +
      durationQuality * cfg.matchWeights.duration }

/-- The outer `for (const gen of generated)` loop of `matchNotes`,
threading the set of consumed reference ids. -/
def matchNotesGo (cfg : ComparisonConfig) (reference : List ProcessedNote) :
    List ProcessedNote → List String → List NoteMatch
  | [], _ => []
  | g :: rest, consumed =>
    match findBest cfg g reference consumed with
    | none => matchNotesGo cfg reference rest consumed
    | some (r, _) => mkMatch cfg g r :: matchNotesGo cfg reference rest (r.id :: consumed)

/-- Result record of `matchNotes`. -/
structure MatchResult where
  «matches» : List NoteMatch
  unmatchedGenerated : List ProcessedNote
  unmatchedReference : List ProcessedNote
deriving DecidableEq, Repr

/-- Embeds `matchNotes` from `src/utils/comparisonMetrics.ts`: greedy
matching followed by the two `filter(!find(...))` complements. -/
def matchNotes (cfg : ComparisonConfig)
    (generated reference : List ProcessedNote) : MatchResult :=
  let ms := matchNotesGo cfg reference generated []
  { «matches» := ms
    unmatchedGenerated :=
      generated.filter (fun g => !(ms.any (fun m => m.generated.id == g.id)))
    unmatchedReference :=
      reference.filter (fun r => !(ms.any (fun m => m.reference.id == r.id))) }

/-- Embeds `calculateTimingAccuracy`. -/
def calculateTimingAccuracy (cfg : ComparisonConfig) (ms : List NoteMatch) : ℚ :=
  if ms.length = 0 then 0
  else
    clamp01 (1 - ((ms.map (fun m => m.timingError)).sum / ms.length) / cfg.timingToleranceSec)

/-- Embeds `calculateVelocityAccuracy` (the source takes `Math.abs` of the
already non-negative stored error). -/
def calculateVelocityAccuracy (ms : List NoteMatch) : ℚ :=
  if ms.length = 0 then 0
  else clamp01 (1 - ((ms.map (fun m => |m.velocityError|)).sum / ms.length) / 127)

/-- Embeds `calculateDurationAccuracy`. -/
def calculateDurationAccuracy (ms : List NoteMatch) : ℚ :=
  if ms.length = 0 then 0
  else
    let avgRefDur := (ms.map (fun m => max (1/20) m.reference.duration)).sum / ms.length
    let avgAbs := (ms.map (fun m => |m.durationError|)).sum / ms.length
    clamp01 (1 - avgAbs / avgRefDur)

/-- Embeds `diffs`: consecutive differences `arr[i+1] - arr[i]`. -/
def diffs (l : List ℚ) : List ℚ := (l.zip l.tail).map (fun p => p.2 - p.1)

/-- Embeds `normalizeZ` (z-score normalization; `std || 1e-8` guards the
zero standard deviation). -/
noncomputable def normalizeZ (arr : List ℚ) : List ℝ :=
  let n : ℚ := if arr.length = 0 then 1 else (arr.length : ℚ)
  let mean : ℚ := arr.sum / n
  let variance : ℚ := (arr.map (fun v => (v - mean) * (v - mean))).sum / n
  let std : ℝ := Real.sqrt (variance : ℝ)
  let denom : ℝ := if std = 0 then 1/100000000 else std
  arr.map (fun v => ((v : ℝ) - (mean : ℝ)) / denom)

/-- Embeds `pearson` (`den = sqrt(da)*sqrt(db) || 1e-8`; result not
clamped here, exactly as in the source). -/
noncomputable def pearson (a b : List ℝ) : ℝ :=
  let n := min a.length b.length
  if n = 0 then 0
  else
    let ax := a.take n
    let bx := b.take n
    let ma := ax.sum / n
    let mb := bx.sum / n
    let num := ((ax.zip bx).map (fun p => (p.1 - ma) * (p.2 - mb))).sum
    let da := (ax.map (fun v => (v - ma) * (v - ma))).sum
    let db := (bx.map (fun v => (v - mb) * (v - mb))).sum
    let den0 := Real.sqrt da * Real.sqrt db
    let den := if den0 = 0 then 1/100000000 else den0
    num / den

/-- Embeds `calculateRhythmAccuracy`.  The source's final
`isFinite(corr)` test is always true in the real-number model, so the
finite branch `clamp01((corr + 1) / 2)` is taken. -/
noncomputable def calculateRhythmAccuracy (ms : List NoteMatch) : ℝ :=
  if ms.length < 3 then 0
  else
    let genIoi := diffs (ms.map (fun m => m.generated.startTime))
    let refIoi := diffs (ms.map (fun m => m.reference.startTime))
    let len := min genIoi.length refIoi.length
    if len < 2 then 0
    else clamp01Real ((pearson (normalizeZ (genIoi.take len)) (normalizeZ (refIoi.take len)) + 1) / 2)

/-- The 12-bin pitch-class histogram built in
`calculatePitchClassSimilarity` (`ha[n.note % 12]++`). -/
def pitchHistogram (notes : List ProcessedNote) : List ℚ :=
  (List.range 12).map
    (fun i => ((notes.filter (fun n => (n.note % 12).toNat == i)).length : ℚ))

/-- Embeds `cosineSimilarity` (`denom = sqrt(na)*sqrt(nb) || 1e-8`,
clamped to [0,1]). -/
noncomputable def cosineSimilarity (a b : List ℚ) : ℝ :=
  let n := min a.length b.length
  let ax := a.take n
  let bx := b.take n
  let dot : ℚ := ((ax.zip bx).map (fun p => p.1 * p.2)).sum
  let na : ℚ := (ax.map (fun v => v * v)).sum
  let nb : ℚ := (bx.map (fun v => v * v)).sum
  let denom0 : ℝ := Real.sqrt (na : ℝ) * Real.sqrt (nb : ℝ)
  let denom : ℝ := if denom0 = 0 then 1/100000000 else denom0
  clamp01Real ((dot : ℝ) / denom)

/-- Embeds `calculatePitchClassSimilarity`. -/
noncomputable def calculatePitchClassSimilarity (a b : List ProcessedNote) : ℝ :=
  cosineSimilarity (pitchHistogram a) (pitchHistogram b)

/-- Bin count `Math.max(1, Math.ceil(duration / windowSec))` shared by
`densitySeries` and `polyphonySeries`. -/
def binCount (duration windowSec : ℚ) : ℕ := max 1 ⌈duration / windowSec⌉₊

/-- Bin index `Math.min(bins - 1, Math.max(0, Math.floor(t / windowSec)))`
from `densitySeries`. -/
def densityIdx (bins : ℕ) (windowSec t : ℚ) : ℕ :=
  min (bins - 1) (max 0 ⌊t / windowSec⌋).toNat

/-- Embeds `densitySeries`: note-onset counts per window. -/
def densitySeries (notes : List ProcessedNote) (duration windowSec : ℚ) : List ℕ :=
  let bins := binCount duration windowSec
  (List.range bins).map
    (fun i => (notes.filter (fun n => densityIdx bins windowSec n.startTime == i)).length)

/-- Embeds `polyphonySeries`: concurrently sounding notes per window
(`n.startTime < t1 && n.endTime > t0`). -/
def polyphonySeries (notes : List ProcessedNote) (duration windowSec : ℚ) : List ℕ :=
  let bins := binCount duration windowSec
  (List.range bins).map
    (fun i =>
      (notes.filter
        (fun n =>
          decide (n.startTime < min duration (((i : ℚ) + 1) * windowSec)) &&
          decide ((i : ℚ) * windowSec < n.endTime))).length)

/-- Embeds `sequenceSimilarity`: per-series max-normalization followed by
`1 - mean absolute error`, clamped. -/
def sequenceSimilarity (a b : List ℕ) : ℚ :=
  let len := min a.length b.length
  if len = 0 then 0
  else
    let aS := a.take len
    let bS := b.take len
    let maxA : ℚ := max 1 ((aS.foldl max 0 : ℕ) : ℚ)
    let maxB : ℚ := max 1 ((bS.foldl max 0 : ℕ) : ℚ)
    let na := aS.map (fun v => (v : ℚ) / maxA)
    let nb := bS.map (fun v => (v : ℚ) / maxB)
    let mae := ((na.zip nb).map (fun p => |p.1 - p.2|)).sum / len
    clamp01 (1 - mae)

/-- Embeds `calculateDensitySimilarity`. -/
def calculateDensitySimilarity (a b : List ProcessedNote) (duration windowSec : ℚ) : ℚ :=
  if duration ≤ 0 then 0
  else sequenceSimilarity (densitySeries a duration windowSec) (densitySeries b duration windowSec)

/-- Embeds `calculatePolyphonySimilarity`. -/
def calculatePolyphonySimilarity (a b : List ProcessedNote) (duration windowSec : ℚ) : ℚ :=
  if duration ≤ 0 then 0
  else sequenceSimilarity (polyphonySeries a duration windowSec) (polyphonySeries b duration windowSec)

/-- `Math.min(...)` over the pitches of a non-empty note list (0 for the
empty list, which the caller rules out). -/
def listMinZ : List ℤ → ℤ
  | [] => 0
  | x :: xs => xs.foldl min x

/-- `Math.max(...)` over the pitches of a non-empty note list. -/
def listMaxZ : List ℤ → ℤ
  | [] => 0
  | x :: xs => xs.foldl max x

/-- Embeds `calculateRangeOverlap` (`union = ... || 1` guards the
zero-width union). -/
def calculateRangeOverlap (a b : List ProcessedNote) : ℚ :=
  if a.length = 0 ∨ b.length = 0 then 0
  else
    let amin := listMinZ (a.map (fun n => n.note))
    let amax := listMaxZ (a.map (fun n => n.note))
    let bmin := listMinZ (b.map (fun n => n.note))
    let bmax := listMaxZ (b.map (fun n => n.note))
    let inter : ℚ := max 0 (((min amax bmax - max amin bmin : ℤ) : ℚ))
    let union0 : ℤ := max amax bmax - min amin bmin
    let union : ℚ := if union0 = 0 then 1 else (union0 : ℚ)
    clamp01 (inter / union)

/-- The record of metric values passed to `weightedAverage` in
`compareMidiData`. -/
structure MetricValues where
  noteAccuracy : ℚ
  timingAccuracy : ℚ
  rhythmAccuracy : ℝ
  velocityAccuracy : ℚ
  durationAccuracy : ℚ
  pitchClassSimilarity : ℝ
  densitySimilarity : ℚ
  polyphonySimilarity : ℚ
  rangeOverlap : ℚ

/-- Embeds `weightedAverage`.  `Object.keys(weights)` iterates the nine
fields of `overallWeights` in declaration order, and every key is present
in the `values` record, so the loop is the literal nine-term sum. -/
noncomputable def weightedAverage (v : MetricValues) (w : OverallWeights) : ℝ :=
  let sum : ℝ :=
    (v.noteAccuracy : ℝ) * (w.noteAccuracy : ℝ) +
    (v.timingAccuracy : ℝ) * (w.timingAccuracy : ℝ) +
    v.rhythmAccuracy * (w.rhythmAccuracy : ℝ) +
    (v.velocityAccuracy : ℝ) * (w.velocityAccuracy : ℝ) +
    (v.durationAccuracy : ℝ) * (w.durationAccuracy : ℝ) +
    v.pitchClassSimilarity * (w.pitchClassSimilarity : ℝ) +
    (v.densitySimilarity : ℝ) * (w.densitySimilarity : ℝ) +
    (v.polyphonySimilarity : ℝ) * (w.polyphonySimilarity : ℝ) +
    (v.rangeOverlap : ℝ) * (w.rangeOverlap : ℝ)
  let wsum : ℚ :=
    w.noteAccuracy + w.timingAccuracy + w.rhythmAccuracy + w.velocityAccuracy +
    w.durationAccuracy + w.pitchClassSimilarity + w.densitySimilarity +
    w.polyphonySimilarity + w.rangeOverlap
  if 0 < wsum then sum / (wsum : ℝ) else 0

/-- Embeds `ComparisonMetricsTs`, the result record of `compareMidiData`. -/
structure ComparisonMetrics where
  overallScore : ℝ
  noteAccuracy : ℚ
  «precision» : ℚ
  «recall» : ℚ
  timingAccuracy : ℚ
  rhythmAccuracy : ℝ
  velocityAccuracy : ℚ
  durationAccuracy : ℚ
  pitchClassSimilarity : ℝ
  densitySimilarity : ℚ
  polyphonySimilarity : ℚ
  rangeOverlap : ℚ
  matchedCount : ℕ
  unmatchedGenerated : ℕ
  unmatchedReference : ℕ
  «matches» : List NoteMatch

/-- The comparator `(a, b) => a.startTime - b.startTime` used by the two
stable `Array.sort` calls in `compareMidiData`. -/
def byStartTime (a b : ProcessedNote) : Prop := a.startTime ≤ b.startTime

instance : DecidableRel byStartTime :=
  fun a b => inferInstanceAs (Decidable (a.startTime ≤ b.startTime))

/-- `[...notes].sort((a, b) => a.startTime - b.startTime)`.  ECMAScript
`Array.sort` is a stable sort, so its result is the unique stable
ascending reordering; it is modelled by the stable `List.insertionSort`. -/
def sortNotes (l : List ProcessedNote) : List ProcessedNote :=
  l.insertionSort byStartTime

/-- Embeds `compareMidiData` from `src/utils/comparisonMetrics.ts`.  The
config argument is the merged `{...defaultConfig, ...cfg}` record.  The
source contains no validation and no `throw`, so the function is total. -/
noncomputable def compareMidiData (generated reference : ProcessedMidiData)
    (cfg : ComparisonConfig) : ComparisonMetrics :=
  let generatedNotes := sortNotes generated.notes
  let referenceNotes := sortNotes reference.notes
  let mr := matchNotes cfg generatedNotes referenceNotes
  let ms := mr.«matches»
  let prec : ℚ :=
    (ms.length : ℚ) /
      (if generatedNotes.length = 0 then 1 else (generatedNotes.length : ℚ))
  let rec1 : ℚ :=
    (ms.length : ℚ) /
      (if referenceNotes.length = 0 then 1 else (referenceNotes.length : ℚ))
  let f1 : ℚ :=
    if prec + rec1 = 0 then 0
    else 2 * prec * rec1 / (prec + rec1)
  let timingAccuracy := calculateTimingAccuracy cfg ms
  let rhythmAccuracy := calculateRhythmAccuracy ms
  let velocityAccuracy := calculateVelocityAccuracy ms
  let durationAccuracy := calculateDurationAccuracy ms
  let pitchClassSimilarity := calculatePitchClassSimilarity generatedNotes referenceNotes
  let densitySimilarity :=
    calculateDensitySimilarity generatedNotes referenceNotes
      (max generated.duration reference.duration) cfg.densityWindowSec
  let polyphonySimilarity :=
    calculatePolyphonySimilarity generatedNotes referenceNotes
      (max generated.duration reference.duration) cfg.polyphonyWindowSec
  let rangeOverlap := calculateRangeOverlap generatedNotes referenceNotes
  let overallScore :=
    weightedAverage
      { noteAccuracy := f1
        timingAccuracy := timingAccuracy
        rhythmAccuracy := rhythmAccuracy
        velocityAccuracy := velocityAccuracy
        durationAccuracy := durationAccuracy
        pitchClassSimilarity := pitchClassSimilarity
        densitySimilarity := densitySimilarity
        polyphonySimilarity := polyphonySimilarity
        rangeOverlap := rangeOverlap }
      cfg.overallWeights
  { overallScore := overallScore
    noteAccuracy := f1
    «precision» := prec
    «recall» := rec1
    timingAccuracy := timingAccuracy
    rhythmAccuracy := rhythmAccuracy
    velocityAccuracy := velocityAccuracy
    durationAccuracy := durationAccuracy
    pitchClassSimilarity := pitchClassSimilarity
    densitySimilarity := densitySimilarity
    polyphonySimilarity := polyphonySimilarity
    rangeOverlap := rangeOverlap
    matchedCount := ms.length
    unmatchedGenerated := mr.unmatchedGenerated.length
    unmatchedReference := mr.unmatchedReference.length
    «matches» := ms }

/-- Embeds the note objects of `@tonejs/midi` as consumed by
`MidiProcessor.processMidi` (`note.midi`, `note.name`, `note.velocity` in
0..1, `note.time`, `note.duration`). -/
structure ToneNote where
  midi : ℤ
  name : String
  velocity : ℚ
  time : ℚ
  duration : ℚ
deriving DecidableEq, Repr

/-- Embeds the track objects of `@tonejs/midi` as consumed by
`processMidi` (`track.name`, `track.channel`, `track.notes`).  A missing
name is the empty string (the source tests `track.name || ...`). -/
structure ToneTrack where
  name : String
  channel : ℕ
  notes : List ToneNote
deriving DecidableEq, Repr

/-- A tempo entry of the `@tonejs/midi` header. -/
structure ToneTempo where
  bpm : ℚ
deriving DecidableEq, Repr

/-- A time-signature entry of the `@tonejs/midi` header. -/
structure ToneTimeSig where
  numerator : ℚ
  denominator : ℚ
deriving DecidableEq, Repr

/-- The `@tonejs/midi` header as consumed by `processMidi`. -/
structure ToneHeader where
  tempos : List ToneTempo
  timeSignatures : List ToneTimeSig
deriving DecidableEq, Repr

/-- The parsed `@tonejs/midi` object handed to `processMidi`. -/
structure ToneMidi where
  header : ToneHeader
  tracks : List ToneTrack
  duration : ℚ
deriving DecidableEq, Repr

/-- One `ProcessedNote` as built in the inner `forEach` of
`MidiProcessor.processMidi`: id `` `${trackIndex}-${noteIndex}` ``,
velocity rescaled from 0..1 to 0..127 with `Math.round` (round half
toward positive infinity, as Mathlib's `round`). -/
def processNote (trackIndex noteIndex : ℕ) (channel : ℕ) (n : ToneNote) : ProcessedNote where
  id := toString trackIndex ++ "-" ++ toString noteIndex
  note := n.midi
  noteName := n.name
  velocity := (round (n.velocity * 127) : ℤ)
  startTime := n.time
  endTime := n.time + n.duration
  duration := n.duration
  channel := channel
  track := trackIndex

/-- The note list of one track as built by `processMidi` (notes in the
track's own order, indexed by `noteIndex`). -/
def processTrack (trackIndex : ℕ) (t : ToneTrack) : List ProcessedNote :=
  t.notes.enum.map (fun p => processNote trackIndex p.1 t.channel p.2)

/-- Embeds `MidiProcessor.processMidi`: tracks are traversed in order and
their notes appended to the flat `notes` list with no global sort;
`tempos[0]?.bpm || 120` and the time-signature default are the source's
falsy-coalescing reads. -/
def processMidi (midi : ToneMidi) : ProcessedMidiData :=
  let notes := (midi.tracks.enum.map (fun p => processTrack p.1 p.2)).flatten
  let tracks := midi.tracks.enum.map
    (fun p => MidiTrackData.mk
      (if p.2.name = "" then "Track " ++ toString (p.1 + 1) else p.2.name)
      (processTrack p.1 p.2))
  let velocities := notes.map (fun n => n.velocity)
  let noteNumbers := notes.map (fun n => n.note)
  { notes := notes
    duration := midi.duration
    tempo :=
      match midi.header.tempos with
      | [] => 120
      | t :: _ => if t.bpm = 0 then 120 else t.bpm
    timeSignature :=
      match midi.header.timeSignatures with
      | [] => (4, 4)
      | ts :: _ =>
        (if ts.numerator = 0 then 4 else ts.numerator,
         if ts.denominator = 0 then 4 else ts.denominator)
    tracks := tracks
    metadata :=
      { totalNotes := notes.length
        averageVelocity :=
          if velocities.length > 0 then velocities.sum / velocities.length else 0
        noteRange :=
          if noteNumbers.length > 0 then (listMinZ noteNumbers, listMaxZ noteNumbers)
          else (0, 0) } }

/-- Input to `MidiProcessor.parseMidiData`.  Base64 strings, ArrayBuffers
and Uint8Arrays all reach the external `new ToneMidi(bytes)` parser; that
library call is outside this repository, so a raw input is modelled by
the parse outcome it produces (`some midi` when the library parses the
bytes, `none` when it throws).  An input that already has `notes` and
`tracks` arrays is a `ProcessedMidiData`. -/
inductive MidiInput where
  | raw (parsed : Option ToneMidi)
  | processed (d : ProcessedMidiData)

/-- The error surfaced by `parseMidiData` (`throw new Error('Invalid MIDI
file format')`). -/
inductive MidiError where
  | invalidFormat
deriving DecidableEq, Repr

/-- Embeds `MidiProcessor.parseMidiData`: a value that already looks like
processed MIDI (has `notes` and `tracks` arrays) is returned as-is;
otherwise the bytes go through the external parser and `processMidi`. -/
def parseMidiData : MidiInput → Except MidiError ProcessedMidiData
  | .processed d => .ok d
  | .raw (some midi) => .ok (processMidi midi)
  | .raw none => .error .invalidFormat

/-- The note-name table shared by `getNoteName` and `getMidiNote`. -/
def noteNames : List String :=
  ["C", "C#", "D", "D#", "E", "F"] ++ ["F#", "G", "G#", "A", "A#", "B"]

/-- Embeds `MidiProcessor.getNoteName`:
`noteNames[midiNote % 12] + (floor(midiNote / 12) - 1)`. -/
def getNoteName (midiNote : ℕ) : String :=
  (noteNames.getD (midiNote % 12) "") ++ toString ((midiNote / 12 : ℤ) - 1)

/-- `parseInt` on a non-empty all-digit string. -/
def digitsToNat (ds : List Char) : ℕ :=
  ds.foldl (fun acc c => 10 * acc + (c.toNat - '0'.toNat)) 0

/-- Embeds `MidiProcessor.getMidiNote`.  The regular expression
`^([A-G]#?)(\d+)$` is modelled literally: one letter A..G, an optional
sharp, then one or more digits (no sign, so negative octaves never
match); a failed match or an unknown name in `noteNames` is the source's
`throw`, modelled as `none`. -/
def getMidiNote (noteName : String) : Option ℕ :=
  match noteName.data with
  | [] => none
  | c :: rest =>
    if 'A' ≤ c ∧ c ≤ 'G' then
      let parts : String × List Char :=
        match rest with
        | '#' :: ds => (String.mk [c, '#'], ds)
        | ds => (String.mk [c], ds)
      if parts.2 ≠ [] ∧ parts.2.all (fun d => '0' ≤ d ∧ d ≤ '9') then
        match noteNames.findIdx? (fun s => s == parts.1) with
        | some noteIndex => some ((digitsToNat parts.2 + 1) * 12 + noteIndex)
        | none => none
      else none
    else none

/-- Written from the spec's words for the matcher contract: a reference
note is a candidate for a generated note when it is still available (not
consumed) and within the timing and pitch tolerances. -/
def isCandidate (cfg : ComparisonConfig) (g r : ProcessedNote) (consumed : List String) : Prop :=
  r.id ∉ consumed ∧ timingDistance g r ≤ cfg.timingToleranceSec ∧
    pitchDistance g r ≤ cfg.pitchToleranceSemitones

instance (cfg : ComparisonConfig) (g r : ProcessedNote) (consumed : List String) :
    Decidable (isCandidate cfg g r consumed) := by
  unfold isCandidate; infer_instance

/-- Written from the spec's words for claim C3: a valid configuration has
a positive timing tolerance, a non-negative pitch tolerance and
non-negative overall weights. -/
def validConfig (cfg : ComparisonConfig) : Prop :=
  0 < cfg.timingToleranceSec ∧ 0 ≤ cfg.pitchToleranceSemitones ∧
  0 ≤ cfg.overallWeights.noteAccuracy ∧ 0 ≤ cfg.overallWeights.timingAccuracy ∧
  0 ≤ cfg.overallWeights.rhythmAccuracy ∧ 0 ≤ cfg.overallWeights.velocityAccuracy ∧
  0 ≤ cfg.overallWeights.durationAccuracy ∧ 0 ≤ cfg.overallWeights.pitchClassSimilarity ∧
  0 ≤ cfg.overallWeights.densitySimilarity ∧ 0 ≤ cfg.overallWeights.polyphonySimilarity ∧
  0 ≤ cfg.overallWeights.rangeOverlap

/-- Concrete note builder for test inputs (name/channel/track fields are
irrelevant to the comparison pipeline). -/
def mkTestNote (id : String) (note : ℤ) (vel startTime dur : ℚ) : ProcessedNote where
  id := id
  note := note
  noteName := ""
  velocity := vel
  startTime := startTime
  endTime := startTime + dur
  duration := dur
  channel := 0
  track := 0

/-- Concrete `ProcessedMidiData` builder for test inputs. -/
def mkTestData (notes : List ProcessedNote) (duration : ℚ) : ProcessedMidiData where
  notes := notes
  duration := duration
  tempo := 120
  timeSignature := (4, 4)
  tracks := []
  metadata := { totalNotes := notes.length, averageVelocity := 0, noteRange := (0, 0) }

/-- A one-note sequence (C4, velocity 80, onset 0, duration 0.5). -/
def singleNoteData : ProcessedMidiData :=
  mkTestData [mkTestNote "0-0" 60 80 0 (1/2)] (1/2)

/-- A two-note sequence with two distinct pitches. -/
def twoNoteData : ProcessedMidiData :=
  mkTestData [mkTestNote "0-0" 60 80 0 (1/2), mkTestNote "0-1" 64 80 1 (1/2)] (3/2)

/-- Generated side of the spec's concrete scenario (claim C9). -/
def genScenario : ProcessedMidiData :=
  mkTestData [mkTestNote "0-0" 60 80 0 (1/2)] (1/2)

/-- Reference side of the spec's concrete scenario (claim C9): same note
shifted by 0.05 s. -/
def refScenario : ProcessedMidiData :=
  mkTestData [mkTestNote "0-0" 60 80 (1/20) (1/2)] (11/20)

/-- The generated note of the spec's concrete scenario. -/
def noteG : ProcessedNote := mkTestNote "0-0" 60 80 0 (1/2)

/-- The reference note of the spec's concrete scenario. -/
def noteR : ProcessedNote := mkTestNote "0-0" 60 80 (1/20) (1/2)

/-- An empty decoded sequence (claim C8). -/
def emptyData : ProcessedMidiData := mkTestData [] 0

/-- A configuration with a negative timing tolerance (claim C6). -/
def negTolConfig : ComparisonConfig :=
  { defaultConfig with timingToleranceSec := -1 }

/-- A two-track `@tonejs/midi` input whose second track starts before the
first track's note (claim C4). -/
def twoTrackMidi : ToneMidi where
  header := { tempos := [], timeSignatures := [] }
  tracks :=
    [ { name := "a", channel := 0, notes := [{ midi := 60, name := "C4", velocity := 1/2, time := 1, duration := 1 }] },
      { name := "b", channel := 0, notes := [{ midi := 62, name := "D4", velocity := 1/2, time := 0, duration := 1 }] } ]
  duration := 2

/-- A single track with time-ordered notes. -/
def oneTrack : ToneTrack where
  name := "a"
  channel := 2
  notes :=
    [ { midi := 60, name := "C4", velocity := 1/2, time := 0, duration := 1 },
      { midi := 64, name := "E4", velocity := 1/2, time := 1/2, duration := 1 } ]

/-- A single-track `@tonejs/midi` input with time-ordered notes. -/
def oneTrackMidi : ToneMidi where
  header := { tempos := [{ bpm := 100 }], timeSignatures := [{ numerator := 3, denominator := 4 }] }
  tracks := [oneTrack]
  duration := 3/2

/-- Invariant of the inner best-candidate scan of `matchNotes`: after the
notes in `pool` have been examined, either no candidate was seen, or the
stored pair is a seen candidate of minimal distance among seen
candidates. -/
def BestInv (cfg : ComparisonConfig) (g : ProcessedNote) (consumed : List String)
    (pool : List ProcessedNote) : Option (ProcessedNote × ℚ) → Prop
  | none => ∀ r ∈ pool, ¬ isCandidate cfg g r consumed
  | some (b, s) => b ∈ pool ∧ isCandidate cfg g b consumed ∧ s = noteDistance g b ∧
      ∀ r ∈ pool, isCandidate cfg g r consumed → s ≤ noteDistance g r

/-- Written from the spec's words for claim C4: a note list is
chronologically ordered by startTime. -/
def Chronological (l : List ProcessedNote) : Prop := List.Pairwise byStartTime l

theorem mkMatch_generated (cfg : ComparisonConfig) (g r : ProcessedNote) :
    (mkMatch cfg g r).generated = g := rfl

theorem mkMatch_reference (cfg : ComparisonConfig) (g r : ProcessedNote) :
    (mkMatch cfg g r).reference = r := rfl

theorem sortNotes_single (n : ProcessedNote) : sortNotes [n] = [n] := rfl

theorem sortNotes_perm (l : List ProcessedNote) : List.Perm (sortNotes l) l :=
  List.perm_insertionSort byStartTime l

theorem sortNotes_length (l : List ProcessedNote) : (sortNotes l).length = l.length :=
  List.length_insertionSort byStartTime l

theorem timingDistance_nonneg (g r : ProcessedNote) : 0 ≤ timingDistance g r :=
  abs_nonneg _

theorem noteDistance_nonneg (g r : ProcessedNote) : 0 ≤ noteDistance g r := by
  unfold noteDistance timingDistance pitchDistance durationDistance
  positivity

theorem timingDistance_self (g : ProcessedNote) : timingDistance g g = 0 := by
  simp [timingDistance]

theorem noteDistance_self (g : ProcessedNote) : noteDistance g g = 0 := by
  simp [noteDistance, timingDistance, pitchDistance, durationDistance]

theorem isCandidate_self (cfg : ComparisonConfig) (g : ProcessedNote) (consumed : List String)
    (hid : g.id ∉ consumed) (htol : 0 ≤ cfg.timingToleranceSec)
    (hptol : 0 ≤ cfg.pitchToleranceSemitones) : isCandidate cfg g g consumed := by
  refine ⟨hid, ?_, ?_⟩ <;>
    simp [timingDistance, pitchDistance, htol, hptol]

theorem pickBetter_eq_of_not_cand {cfg : ComparisonConfig} {g r : ProcessedNote}
    {consumed : List String} (best : Option (ProcessedNote × ℚ))
    (h : ¬ isCandidate cfg g r consumed) :
    pickBetter cfg g consumed best r = best := by
  unfold pickBetter
  by_cases h1 : r.id ∈ consumed
  · simp [h1]
  · have h2 : cfg.timingToleranceSec < timingDistance g r ∨
        cfg.pitchToleranceSemitones < pitchDistance g r := by
      unfold isCandidate at h
      push_neg at h
      rcases lt_or_le cfg.timingToleranceSec (timingDistance g r) with ht | ht
      · exact Or.inl ht
      · exact Or.inr (h h1 ht)
    simp [h1, h2]

theorem pickBetter_eq_of_cand {cfg : ComparisonConfig} {g r : ProcessedNote}
    {consumed : List String} (best : Option (ProcessedNote × ℚ))
    (h : isCandidate cfg g r consumed) :
    pickBetter cfg g consumed best r =
      match best with
      | none => some (r, noteDistance g r)
      | some (b, s) =>
        if noteDistance g r < s then some (r, noteDistance g r) else some (b, s) := by
  obtain ⟨h1, h2, h3⟩ := h
  unfold pickBetter
  rw [if_neg h1, if_neg (by push_neg; exact ⟨h2, h3⟩)]

theorem bestInv_pickBetter {cfg : ComparisonConfig} {g : ProcessedNote}
    {consumed : List String} {pool : List ProcessedNote}
    {best : Option (ProcessedNote × ℚ)} (r : ProcessedNote)
    (h : BestInv cfg g consumed pool best) :
    BestInv cfg g consumed (pool ++ [r]) (pickBetter cfg g consumed best r) := by
  by_cases hc : isCandidate cfg g r consumed
  · rw [pickBetter_eq_of_cand best hc]
    cases best with
    | none =>
      refine ⟨List.mem_append_right _ (List.mem_singleton_self r), hc, rfl, ?_⟩
      intro x hx hcx
      rcases List.mem_append.mp hx with hx | hx
      · exact absurd hcx (h x hx)
      · rw [List.mem_singleton] at hx
        subst hx
        exact le_refl _
    | some bs =>
      obtain ⟨b, s⟩ := bs
      obtain ⟨hb, hcb, hs, hmin⟩ := h
      dsimp only
      by_cases hlt : noteDistance g r < s
      · rw [if_pos hlt]
        refine ⟨List.mem_append_right _ (List.mem_singleton_self r), hc, rfl, ?_⟩
        intro x hx hcx
        rcases List.mem_append.mp hx with hx | hx
        · exact le_of_lt (lt_of_lt_of_le hlt (hmin x hx hcx))
        · rw [List.mem_singleton] at hx
          subst hx
          exact le_refl _
      · rw [if_neg hlt]
        refine ⟨List.mem_append_left _ hb, hcb, hs, ?_⟩
        intro x hx hcx
        rcases List.mem_append.mp hx with hx | hx
        · exact hmin x hx hcx
        · rw [List.mem_singleton] at hx
          subst hx
          exact not_lt.mp hlt
  · rw [pickBetter_eq_of_not_cand best hc]
    cases best with
    | none =>
      intro x hx
      rcases List.mem_append.mp hx with hx | hx
      · exact h x hx
      · rw [List.mem_singleton] at hx
        subst hx
        exact hc
    | some bs =>
      obtain ⟨b, s⟩ := bs
      obtain ⟨hb, hcb, hs, hmin⟩ := h
      refine ⟨List.mem_append_left _ hb, hcb, hs, ?_⟩
      intro x hx hcx
      rcases List.mem_append.mp hx with hx | hx
      · exact hmin x hx hcx
      · rw [List.mem_singleton] at hx
        subst hx
        exact absurd hcx hc

theorem bestInv_foldl {cfg : ComparisonConfig} {g : ProcessedNote}
    {consumed : List String} (refs : List ProcessedNote) :
    ∀ (pool : List ProcessedNote) (best : Option (ProcessedNote × ℚ)),
      BestInv cfg g consumed pool best →
      BestInv cfg g consumed (pool ++ refs) (refs.foldl (pickBetter cfg g consumed) best) := by
  induction refs with
  | nil => intro pool best h; simpa using h
  | cons r rest ih =>
    intro pool best h
    have h2 := ih (pool ++ [r]) _ (bestInv_pickBetter r h)
    simpa [List.append_assoc] using h2

theorem findBest_bestInv (cfg : ComparisonConfig) (g : ProcessedNote)
    (reference : List ProcessedNote) (consumed : List String) :
    BestInv cfg g consumed reference (findBest cfg g reference consumed) := by
  have h0 : BestInv cfg g consumed [] none := fun x hx => absurd hx (List.not_mem_nil x)
  simpa using bestInv_foldl reference [] none h0

theorem findBest_some_spec {cfg : ComparisonConfig} {g : ProcessedNote}
    {reference : List ProcessedNote} {consumed : List String}
    {r : ProcessedNote} {d : ℚ}
    (h : findBest cfg g reference consumed = some (r, d)) :
    r ∈ reference ∧ isCandidate cfg g r consumed ∧ d = noteDistance g r ∧
      ∀ x ∈ reference, isCandidate cfg g x consumed → d ≤ noteDistance g x := by
  have hb := findBest_bestInv cfg g reference consumed
  rw [h] at hb
  exact hb

theorem foldl_pickBetter_const {cfg : ComparisonConfig} {g : ProcessedNote}
    {consumed : List String} (refs : List ProcessedNote)
    (best : Option (ProcessedNote × ℚ))
    (h : ∀ r ∈ refs, ¬ isCandidate cfg g r consumed) :
    refs.foldl (pickBetter cfg g consumed) best = best := by
  induction refs generalizing best with
  | nil => rfl
  | cons r rest ih =>
    rw [List.foldl_cons, pickBetter_eq_of_not_cand best (h r (List.mem_cons_self r rest))]
    exact ih best (fun x hx => h x (List.mem_cons_of_mem r hx))

theorem findBest_none_iff {cfg : ComparisonConfig} {g : ProcessedNote}
    {reference : List ProcessedNote} {consumed : List String} :
    findBest cfg g reference consumed = none ↔
      ∀ r ∈ reference, ¬ isCandidate cfg g r consumed := by
  constructor
  · intro h
    have hb := findBest_bestInv cfg g reference consumed
    rw [h] at hb
    exact hb
  · intro h
    exact foldl_pickBetter_const reference none h

theorem foldl_pickBetter_zero {cfg : ComparisonConfig} {g : ProcessedNote}
    {consumed : List String} (refs : List ProcessedNote) (b : ProcessedNote) :
    refs.foldl (pickBetter cfg g consumed) (some (b, 0)) = some (b, 0) := by
  induction refs with
  | nil => rfl
  | cons r rest ih =>
    rw [List.foldl_cons]
    by_cases hc : isCandidate cfg g r consumed
    · rw [pickBetter_eq_of_cand _ hc]
      dsimp only
      rw [if_neg (not_lt.mpr (noteDistance_nonneg g r))]
      exact ih
    · rw [pickBetter_eq_of_not_cand _ hc]
      exact ih

theorem findBest_self (cfg : ComparisonConfig) (pre post : List ProcessedNote)
    (g : ProcessedNote) (consumed : List String)
    (hpre : ∀ p ∈ pre, p.id ∈ consumed)
    (hg : isCandidate cfg g g consumed) :
    findBest cfg g (pre ++ g :: post) consumed = some (g, 0) := by
  unfold findBest
  rw [List.foldl_append]
  rw [foldl_pickBetter_const pre none (fun p hp hc => hc.1 (hpre p hp))]
  rw [List.foldl_cons, pickBetter_eq_of_cand none hg, noteDistance_self]
  exact foldl_pickBetter_zero post g

theorem matchNotesGo_nil_reference (cfg : ComparisonConfig) (gens : List ProcessedNote)
    (consumed : List String) : matchNotesGo cfg [] gens consumed = [] := by
  induction gens generalizing consumed with
  | nil => rfl
  | cons g rest ih => exact ih consumed

theorem matchNotesGo_length_le (cfg : ComparisonConfig) (reference gens : List ProcessedNote)
    (consumed : List String) :
    (matchNotesGo cfg reference gens consumed).length ≤ gens.length := by
  induction gens generalizing consumed with
  | nil => exact le_refl 0
  | cons g rest ih =>
    rw [matchNotesGo]
    cases h : findBest cfg g reference consumed with
    | none => exact (ih consumed).trans (Nat.le_succ _)
    | some rd =>
      obtain ⟨r, d⟩ := rd
      simpa using Nat.succ_le_succ (ih (r.id :: consumed))

theorem matchNotesGo_generated_sublist (cfg : ComparisonConfig)
    (reference gens : List ProcessedNote) (consumed : List String) :
    List.Sublist ((matchNotesGo cfg reference gens consumed).map (fun m => m.generated)) gens := by
  induction gens generalizing consumed with
  | nil => exact List.Sublist.refl []
  | cons g rest ih =>
    rw [matchNotesGo]
    cases h : findBest cfg g reference consumed with
    | none => exact (ih consumed).cons g
    | some rd =>
      obtain ⟨r, d⟩ := rd
      simpa [mkMatch_generated] using (ih (r.id :: consumed)).cons₂ g

theorem matchNotesGo_refIds (cfg : ComparisonConfig) (reference gens : List ProcessedNote)
    (consumed : List String) :
    ((matchNotesGo cfg reference gens consumed).map (fun m => m.reference.id)).Nodup ∧
    (∀ s ∈ (matchNotesGo cfg reference gens consumed).map (fun m => m.reference.id),
      s ∉ consumed) ∧
    (∀ m ∈ matchNotesGo cfg reference gens consumed, m.reference ∈ reference) := by
  induction gens generalizing consumed with
  | nil => refine ⟨?_, ?_, ?_⟩ <;> simp [matchNotesGo]
  | cons g rest ih =>
    rw [matchNotesGo]
    cases h : findBest cfg g reference consumed with
    | none => exact ih consumed
    | some rd =>
      obtain ⟨r, d⟩ := rd
      obtain ⟨hrmem, hcand, -, -⟩ := findBest_some_spec h
      obtain ⟨ih1, ih2, ih3⟩ := ih (r.id :: consumed)
      refine ⟨?_, ?_, ?_⟩
      · rw [List.map_cons, List.nodup_cons]
        refine ⟨fun hmem => ?_, ih1⟩
        exact (ih2 _ hmem) (List.mem_cons_self _ _)
      · intro s hs
        rw [List.map_cons, List.mem_cons] at hs
        rcases hs with hs | hs
        · rw [hs, mkMatch_reference]
          exact hcand.1
        · exact fun hmem => (ih2 s hs) (List.mem_cons_of_mem _ hmem)
      · intro m hm
        rcases List.mem_cons.mp hm with hm | hm
        · rw [hm, mkMatch_reference]
          exact hrmem
        · exact ih3 m hm

theorem matchNotesGo_self (cfg : ComparisonConfig)
    (htol : 0 ≤ cfg.timingToleranceSec) (hptol : 0 ≤ cfg.pitchToleranceSemitones) :
    ∀ (post pre : List ProcessedNote) (consumed : List String),
      (((pre ++ post).map (fun n => n.id)).Nodup) →
      (∀ p ∈ pre, p.id ∈ consumed) →
      (∀ p ∈ post, p.id ∉ consumed) →
      matchNotesGo cfg (pre ++ post) post consumed = post.map (fun x => mkMatch cfg x x) := by
  intro post
  induction post with
  | nil => intro pre consumed _ _ _; rfl
  | cons g rest ih =>
    intro pre consumed hnodup hpre hpost
    have hgnot : g.id ∉ consumed := hpost g (List.mem_cons_self g rest)
    have hcand : isCandidate cfg g g consumed := isCandidate_self cfg g consumed hgnot htol hptol
    have hfb := findBest_self cfg pre rest g consumed hpre hcand
    rw [matchNotesGo, hfb]
    dsimp only
    have heq : pre ++ g :: rest = (pre ++ [g]) ++ rest := by simp
    have hgrest : g.id ∉ rest.map (fun n => n.id) := by
      have h2 : ((g :: rest).map (fun n => n.id)).Nodup := by
        have := hnodup
        rw [List.map_append] at this
        exact this.of_append_right
      rw [List.map_cons, List.nodup_cons] at h2
      exact h2.1
    have ih2 := ih (pre ++ [g]) (g.id :: consumed)
      (by rw [← heq]; exact hnodup)
      (by
        intro p hp
        rcases List.mem_append.mp hp with hp | hp
        · exact List.mem_cons_of_mem _ (hpre p hp)
        · rw [List.mem_singleton] at hp
          subst hp
          exact List.mem_cons_self _ _)
      (by
        intro p hp
        rw [List.mem_cons]
        push_neg
        constructor
        · intro hpg
          exact hgrest (by
            rw [← hpg]
            exact List.mem_map_of_mem (fun n => n.id) hp)
        · exact hpost p (List.mem_cons_of_mem g hp))
    rw [List.map_cons, heq, ih2]

theorem matchNotes_self (cfg : ComparisonConfig) (L : List ProcessedNote)
    (htol : 0 ≤ cfg.timingToleranceSec) (hptol : 0 ≤ cfg.pitchToleranceSemitones)
    (hnodup : (L.map (fun n => n.id)).Nodup) :
    matchNotes cfg L L =
      ⟨L.map (fun x => mkMatch cfg x x), [], []⟩ := by
  have hm : matchNotesGo cfg L L [] = L.map (fun x => mkMatch cfg x x) := by
    have := matchNotesGo_self cfg htol hptol L [] []
      (by simpa using hnodup) (by simp) (by simp)
    simpa using this
  have hgen : L.filter
      (fun g => !((L.map (fun x => mkMatch cfg x x)).any
        (fun m => m.generated.id == g.id))) = [] := by
    rw [List.filter_eq_nil_iff]
    intro g hg
    have hany : (L.map (fun x => mkMatch cfg x x)).any
        (fun m => m.generated.id == g.id) = true :=
      List.any_eq_true.mpr ⟨mkMatch cfg g g, List.mem_map_of_mem _ hg,
        by rw [mkMatch_generated]; exact beq_self_eq_true _⟩
    simp [hany]
  have href : L.filter
      (fun r => !((L.map (fun x => mkMatch cfg x x)).any
        (fun m => m.reference.id == r.id))) = [] := by
    rw [List.filter_eq_nil_iff]
    intro r hr
    have hany : (L.map (fun x => mkMatch cfg x x)).any
        (fun m => m.reference.id == r.id) = true :=
      List.any_eq_true.mpr ⟨mkMatch cfg r r, List.mem_map_of_mem _ hr,
        by rw [mkMatch_reference]; exact beq_self_eq_true _⟩
    simp [hany]
  simp only [matchNotes, hm]
  rw [hgen, href]

theorem matchNotesGo_neg_tol (cfg : ComparisonConfig) (h : cfg.timingToleranceSec < 0)
    (reference gens : List ProcessedNote) (consumed : List String) :
    matchNotesGo cfg reference gens consumed = [] := by
  induction gens generalizing consumed with
  | nil => rfl
  | cons g rest ih =>
    have hfb : findBest cfg g reference consumed = none := by
      rw [findBest_none_iff]
      intro r _ hc
      exact absurd (le_trans (timingDistance_nonneg g r) hc.2.1) (not_le.mpr h)
    rw [matchNotesGo, hfb]
    exact ih consumed

theorem length_filter_mem {G S : List String} (hG : G.Nodup) (hS : S.Nodup)
    (hsub : ∀ x ∈ S, x ∈ G) :
    (G.filter (fun x => decide (x ∈ S))).length = S.length := by
  have hmem : ∀ x, x ∈ G.filter (fun x => decide (x ∈ S)) ↔ x ∈ S := by
    intro x
    rw [List.mem_filter]
    simp only [decide_eq_true_eq]
    exact ⟨fun h => h.2, fun h => ⟨hsub x h, h⟩⟩
  exact ((List.perm_ext_iff_of_nodup (hG.filter _) hS).mpr hmem).length_eq

theorem matchNotesGo_genIds_nodup (cfg : ComparisonConfig)
    (reference gens : List ProcessedNote) (consumed : List String)
    (hgen : (gens.map (fun n => n.id)).Nodup) :
    ((matchNotesGo cfg reference gens consumed).map (fun m => m.generated.id)).Nodup := by
  have hsub : List.Sublist
      ((matchNotesGo cfg reference gens consumed).map (fun m => m.generated.id))
      (gens.map (fun n => n.id)) := by
    have h1 := (matchNotesGo_generated_sublist cfg reference gens consumed).map
      (fun n => n.id)
    simpa [List.map_map, Function.comp] using h1
  exact hgen.sublist hsub

theorem countP_id_mem {l : List ProcessedNote} {S : List String}
    (hl : (l.map (fun n => n.id)).Nodup) (hS : S.Nodup)
    (hsub : ∀ x ∈ S, x ∈ l.map (fun n => n.id)) :
    l.countP (fun g => decide (g.id ∈ S)) = S.length := by
  have h1 : l.countP (fun g => decide (g.id ∈ S)) =
      (l.map (fun n => n.id)).countP (fun x => decide (x ∈ S)) := by
    rw [List.countP_map]
    rfl
  rw [h1, List.countP_eq_length_filter]
  exact length_filter_mem hl hS hsub

theorem filter_not_mem_length {l : List ProcessedNote} {S : List String}
    (hl : (l.map (fun n => n.id)).Nodup) (hS : S.Nodup)
    (hsub : ∀ x ∈ S, x ∈ l.map (fun n => n.id)) :
    S.length + (l.filter (fun g => !(decide (g.id ∈ S)))).length = l.length := by
  have h0 := List.length_eq_countP_add_countP (p := fun g : ProcessedNote => decide (g.id ∈ S)) l
  rw [← List.countP_eq_length_filter]
  rw [← countP_id_mem hl hS hsub]
  rw [h0]
  congr 1
  apply List.countP_congr
  intro x _
  simp

theorem any_eq_mem_map (M : List NoteMatch) (f : NoteMatch → String) (x : String) :
    M.any (fun m => f m == x) = decide (x ∈ M.map f) := by
  rw [Bool.eq_iff_iff]
  simp only [List.any_eq_true, beq_iff_eq, decide_eq_true_eq, List.mem_map]

theorem matchNotes_counts (cfg : ComparisonConfig) (gens refs : List ProcessedNote)
    (hgen : (gens.map (fun n => n.id)).Nodup) (href : (refs.map (fun n => n.id)).Nodup) :
    (matchNotes cfg gens refs).«matches».length +
      (matchNotes cfg gens refs).unmatchedGenerated.length = gens.length ∧
    (matchNotes cfg gens refs).«matches».length +
      (matchNotes cfg gens refs).unmatchedReference.length = refs.length := by
  simp only [matchNotes]
  constructor
  · set M := matchNotesGo cfg refs gens [] with hM
    set S := M.map (fun m => m.generated.id) with hS
    have hSnodup : S.Nodup := matchNotesGo_genIds_nodup cfg refs gens [] hgen
    have hSsub : ∀ x ∈ S, x ∈ gens.map (fun n => n.id) := by
      intro x hx
      have hsub : List.Sublist S (gens.map (fun n => n.id)) := by
        have h1 := (matchNotesGo_generated_sublist cfg refs gens []).map (fun n => n.id)
        simpa [hS, List.map_map, Function.comp] using h1
      exact hsub.mem hx
    have hcount := filter_not_mem_length hgen hSnodup hSsub
    have hfeq : gens.filter (fun g => !(M.any (fun m => m.generated.id == g.id))) =
        gens.filter (fun g => !(decide (g.id ∈ S))) := by
      apply List.filter_congr
      intro x _
      rw [any_eq_mem_map M (fun m => m.generated.id) x.id]
    rw [hfeq]
    have hlen : M.length = S.length := by rw [hS, List.length_map]
    rw [hlen]
    exact hcount
  · set M := matchNotesGo cfg refs gens [] with hM
    set S := M.map (fun m => m.reference.id) with hS
    obtain ⟨hSnodup, -, hmemref⟩ := matchNotesGo_refIds cfg refs gens []
    have hSsub : ∀ x ∈ S, x ∈ refs.map (fun n => n.id) := by
      intro x hx
      rw [hS, List.mem_map] at hx
      obtain ⟨m, hm, he⟩ := hx
      rw [← he]
      exact List.mem_map_of_mem _ (hmemref m hm)
    have hcount := filter_not_mem_length href hSnodup hSsub
    have hfeq : refs.filter (fun r => !(M.any (fun m => m.reference.id == r.id))) =
        refs.filter (fun r => !(decide (r.id ∈ S))) := by
      apply List.filter_congr
      intro x _
      rw [any_eq_mem_map M (fun m => m.reference.id) x.id]
    rw [hfeq]
    have hlen : M.length = S.length := by rw [hS, List.length_map]
    rw [hlen]
    exact hcount

theorem matchNotesGo_le_ref (cfg : ComparisonConfig) (reference gens : List ProcessedNote)
    (consumed : List String) :
    (matchNotesGo cfg reference gens consumed).length ≤ reference.length := by
  set M := matchNotesGo cfg reference gens consumed with hM
  obtain ⟨hnodup, -, hmem⟩ := matchNotesGo_refIds cfg reference gens consumed
  have h1 : M.length = (M.map (fun m => m.reference.id)).length := by
    rw [List.length_map]
  rw [h1]
  have h2 : (M.map (fun m => m.reference.id)).toFinset.card =
      (M.map (fun m => m.reference.id)).length := List.toFinset_card_of_nodup hnodup
  rw [← h2]
  calc (M.map (fun m => m.reference.id)).toFinset.card
      ≤ (reference.map (fun n => n.id)).toFinset.card := by
        apply Finset.card_le_card
        intro x hx
        rw [List.mem_toFinset] at hx ⊢
        rw [List.mem_map] at hx
        obtain ⟨m, hm, he⟩ := hx
        rw [← he]
        exact List.mem_map_of_mem _ (hmem m hm)
    _ ≤ (reference.map (fun n => n.id)).length := List.toFinset_card_le _
    _ = reference.length := List.length_map _ _

theorem findBest_c9 : findBest defaultConfig noteG [noteR] [] = some (noteR, 1/10) := by
  simp only [findBest, pickBetter, List.foldl, noteG, noteR, mkTestNote,
    timingDistance, pitchDistance, durationDistance, noteDistance, defaultConfig]
  norm_num [abs_of_nonneg]

/-- Claim C2: matching is one-to-one on each side; match and unmatched
counts add up to the input sizes; the unmatched lists are the exact
complements of the matched notes inside their inputs. -/
theorem matchNotes_partial_injection (cfg : ComparisonConfig)
    (generated reference : List ProcessedNote)
    (hgen : (generated.map (fun n => n.id)).Nodup)
    (href : (reference.map (fun n => n.id)).Nodup) :
    ((matchNotes cfg generated reference).«matches».map (fun m => m.generated.id)).Nodup ∧
    ((matchNotes cfg generated reference).«matches».map (fun m => m.reference.id)).Nodup ∧
    ((matchNotes cfg generated reference).«matches».length +
      (matchNotes cfg generated reference).unmatchedGenerated.length = generated.length) ∧
    ((matchNotes cfg generated reference).«matches».length +
      (matchNotes cfg generated reference).unmatchedReference.length = reference.length) ∧
    (∀ g, g ∈ (matchNotes cfg generated reference).unmatchedGenerated ↔
      g ∈ generated ∧
        ∀ m ∈ (matchNotes cfg generated reference).«matches», ¬ m.generated.id = g.id) ∧
    (∀ r, r ∈ (matchNotes cfg generated reference).unmatchedReference ↔
      r ∈ reference ∧
        ∀ m ∈ (matchNotes cfg generated reference).«matches», ¬ m.reference.id = r.id) := by
  obtain ⟨hc1, hc2⟩ := matchNotes_counts cfg generated reference hgen href
  refine ⟨?_, ?_, hc1, hc2, ?_, ?_⟩
  · exact matchNotesGo_genIds_nodup cfg reference generated [] hgen
  · exact (matchNotesGo_refIds cfg reference generated []).1
  · intro g
    simp only [matchNotes, List.mem_filter, Bool.not_eq_true', List.any_eq_false, beq_iff_eq]
  · intro r
    simp only [matchNotes, List.mem_filter, Bool.not_eq_true', List.any_eq_false, beq_iff_eq]

/-- Witness for C2 at a concrete one-note input pair. -/
theorem matchNotes_partial_injection_witness :
    (([noteG].map (fun n => n.id)).Nodup) ∧ (([noteR].map (fun n => n.id)).Nodup) ∧
    ((matchNotes defaultConfig [noteG] [noteR]).«matches».length +
      (matchNotes defaultConfig [noteG] [noteR]).unmatchedGenerated.length = 1) :=
  ⟨by decide, by decide,
    (matchNotes_partial_injection defaultConfig [noteG] [noteR]
      (by decide) (by decide)).2.2.1⟩

/-- Claim C5: the inner scan returns a still-available reference note
within both tolerances that minimizes the weighted distance
2.0|Δtime| + 0.1|Δpitch| + 0.5|Δduration|, or nothing exactly when no
admissible candidate exists; a found note is consumed for the remaining
generated notes, and a generated note without a candidate is skipped. -/
theorem matchNotes_greedy_spec (cfg : ComparisonConfig) (g : ProcessedNote)
    (reference : List ProcessedNote) (consumed : List String) :
    (∀ r d, findBest cfg g reference consumed = some (r, d) →
      r ∈ reference ∧ isCandidate cfg g r consumed ∧ d = noteDistance g r ∧
        ∀ x ∈ reference, isCandidate cfg g x consumed → d ≤ noteDistance g x) ∧
    (findBest cfg g reference consumed = none ↔
      ∀ r ∈ reference, ¬ isCandidate cfg g r consumed) ∧
    (∀ gens r d, findBest cfg g reference consumed = some (r, d) →
      matchNotesGo cfg reference (g :: gens) consumed =
        mkMatch cfg g r :: matchNotesGo cfg reference gens (r.id :: consumed)) ∧
    (findBest cfg g reference consumed = none → ∀ gens,
      matchNotesGo cfg reference (g :: gens) consumed =
        matchNotesGo cfg reference gens consumed) := by
  refine ⟨fun r d h => findBest_some_spec h, findBest_none_iff, ?_, ?_⟩
  · intro gens r d h
    rw [matchNotesGo, h]
  · intro h gens
    rw [matchNotesGo, h]

/-- Witness for C5: at the concrete scenario input the scan selects the
single reference note at its weighted distance. -/
theorem matchNotes_greedy_spec_witness :
    noteR ∈ [noteR] ∧ isCandidate defaultConfig noteG noteR [] ∧
    (1/10 : ℚ) = noteDistance noteG noteR ∧
    ∀ x ∈ [noteR], isCandidate defaultConfig noteG x [] →
      (1/10 : ℚ) ≤ noteDistance noteG x :=
  (matchNotes_greedy_spec defaultConfig noteG [noteR] []).1 noteR (1/10) findBest_c9

theorem mr_c9 : matchNotes defaultConfig [noteG] [noteR] =
    ⟨[mkMatch defaultConfig noteG noteR], [], []⟩ := by
  simp only [matchNotes, matchNotesGo, findBest_c9, List.any_cons, List.any_nil,
    mkMatch_generated, mkMatch_reference]
  norm_num [noteG, noteR, mkTestNote, List.filter]

theorem timing_c9 :
    calculateTimingAccuracy defaultConfig [mkMatch defaultConfig noteG noteR] = 1/2 := by
  norm_num [calculateTimingAccuracy, mkMatch, clamp01, noteG, noteR, mkTestNote, defaultConfig,
    abs_of_nonneg]

/-- Claim C9: on the spec's concrete scenario (one generated note C4 at 0 s,
one reference note C4 at 0.05 s, default config with timing tolerance
0.1 s and pitch tolerance 0) the comparison yields exactly one match with
timingError 0.05, timingAccuracy 0.5 and noteAccuracy 1 with
precision = recall = 1. -/
theorem compareMidiData_concrete_scenario :
    (compareMidiData genScenario refScenario defaultConfig).matchedCount = 1 ∧
    (compareMidiData genScenario refScenario defaultConfig).«matches».map
      (fun m => m.timingError) = [1/20] ∧
    (compareMidiData genScenario refScenario defaultConfig).timingAccuracy = 1/2 ∧
    (compareMidiData genScenario refScenario defaultConfig).noteAccuracy = 1 ∧
    (compareMidiData genScenario refScenario defaultConfig).«precision» = 1 ∧
    (compareMidiData genScenario refScenario defaultConfig).«recall» = 1 := by
  have hg : genScenario.notes = [noteG] := rfl
  have hr : refScenario.notes = [noteR] := rfl
  simp only [compareMidiData, hg, hr, sortNotes_single, mr_c9, timing_c9]
  norm_num [mkMatch, noteG, noteR, mkTestNote, abs_of_nonneg]

/-- Claim C6 (amended): the comparison performs no configuration
validation and never fails; with a negative timing tolerance it still
returns a report, in which no note is matched because every candidate
fails the tolerance gate. -/
theorem compareMidiData_neg_tol (g r : ProcessedMidiData) (cfg : ComparisonConfig)
    (h : cfg.timingToleranceSec < 0) :
    (compareMidiData g r cfg).matchedCount = 0 ∧
    (compareMidiData g r cfg).«matches» = [] := by
  have hgo := matchNotesGo_neg_tol cfg h (sortNotes r.notes) (sortNotes g.notes) []
  constructor <;> simp only [compareMidiData, matchNotes, hgo] <;> rfl

/-- Witness for the amended C6 at a concrete negative-tolerance config. -/
theorem compareMidiData_neg_tol_witness :
    negTolConfig.timingToleranceSec < 0 ∧
    (compareMidiData genScenario refScenario negTolConfig).matchedCount = 0 :=
  ⟨by norm_num [negTolConfig, defaultConfig],
    (compareMidiData_neg_tol genScenario refScenario negTolConfig
      (by norm_num [negTolConfig, defaultConfig])).1⟩

/-- Counterexample to C6 as stated: `compareMidiData` contains no
validation and no throw (it is a total function in the source), so with
an out-of-range negative timing tolerance it does not fail with a
ConfigError — no such error exists in the repository — but returns an
ordinary report with zero matches. -/
theorem compareMidiData_configError_counterexample :
    (compareMidiData genScenario refScenario negTolConfig).matchedCount = 0 ∧
    (compareMidiData genScenario refScenario negTolConfig).unmatchedGenerated = 1 := by
  have hneg : negTolConfig.timingToleranceSec < 0 := by norm_num [negTolConfig, defaultConfig]
  have hgo := matchNotesGo_neg_tol negTolConfig hneg
    (sortNotes refScenario.notes) (sortNotes genScenario.notes) []
  constructor
  · simp only [compareMidiData, matchNotes, hgo]
    rfl
  · simp only [compareMidiData, matchNotes, hgo]
    norm_num [genScenario, mkTestData, sortNotes_single]

/-- Claim C8: comparing a non-empty generated sequence against an empty
reference yields recall 0, matchedCount 0 and noteAccuracy 0; the
embedded pipeline is a total function, so no exception can arise. -/
theorem compareMidiData_empty_reference (g r : ProcessedMidiData) (cfg : ComparisonConfig)
    (hg : g.notes ≠ []) (hr : r.notes = []) :
    (compareMidiData g r cfg).«recall» = 0 ∧
    (compareMidiData g r cfg).matchedCount = 0 ∧
    (compareMidiData g r cfg).noteAccuracy = 0 := by
  have hsort : sortNotes r.notes = [] := by rw [hr]; rfl
  have hgo : matchNotesGo cfg [] (sortNotes g.notes) [] = [] :=
    matchNotesGo_nil_reference cfg (sortNotes g.notes) []
  refine ⟨?_, ?_, ?_⟩ <;> simp only [compareMidiData, matchNotes, hsort, hgo] <;>
    norm_num

/-- Witness for C8 at a concrete non-empty/empty input pair. -/
theorem compareMidiData_empty_reference_witness :
    genScenario.notes ≠ [] ∧ emptyData.notes = [] ∧
    (compareMidiData genScenario emptyData defaultConfig).«recall» = 0 :=
  ⟨by decide, rfl,
    (compareMidiData_empty_reference genScenario emptyData defaultConfig
      (by decide) rfl).1⟩

theorem calculateTimingAccuracy_self (cfg : ComparisonConfig) (L : List ProcessedNote)
    (h : L ≠ []) :
    calculateTimingAccuracy cfg (L.map (fun x => mkMatch cfg x x)) = 1 := by
  have hne : (L.map (fun x => mkMatch cfg x x)).length ≠ 0 := by
    rw [List.length_map]
    exact fun h0 => h (List.length_eq_zero.mp h0)
  unfold calculateTimingAccuracy
  rw [if_neg hne]
  have hsum : ((L.map (fun x => mkMatch cfg x x)).map (fun m => m.timingError)).sum = 0 := by
    rw [List.map_map]
    apply List.sum_eq_zero
    intro q hq
    rw [List.mem_map] at hq
    obtain ⟨x, -, hx⟩ := hq
    rw [← hx]
    simp [Function.comp, mkMatch]
  rw [hsum]
  norm_num [clamp01]

theorem calculateVelocityAccuracy_self (cfg : ComparisonConfig) (L : List ProcessedNote)
    (h : L ≠ []) :
    calculateVelocityAccuracy (L.map (fun x => mkMatch cfg x x)) = 1 := by
  have hne : (L.map (fun x => mkMatch cfg x x)).length ≠ 0 := by
    rw [List.length_map]
    exact fun h0 => h (List.length_eq_zero.mp h0)
  unfold calculateVelocityAccuracy
  rw [if_neg hne]
  have hsum : ((L.map (fun x => mkMatch cfg x x)).map (fun m => |m.velocityError|)).sum = 0 := by
    rw [List.map_map]
    apply List.sum_eq_zero
    intro q hq
    rw [List.mem_map] at hq
    obtain ⟨x, -, hx⟩ := hq
    rw [← hx]
    simp [Function.comp, mkMatch]
  rw [hsum]
  norm_num [clamp01]

theorem calculateDurationAccuracy_self (cfg : ComparisonConfig) (L : List ProcessedNote)
    (h : L ≠ []) :
    calculateDurationAccuracy (L.map (fun x => mkMatch cfg x x)) = 1 := by
  have hne : (L.map (fun x => mkMatch cfg x x)).length ≠ 0 := by
    rw [List.length_map]
    exact fun h0 => h (List.length_eq_zero.mp h0)
  unfold calculateDurationAccuracy
  rw [if_neg hne]
  have hsum : ((L.map (fun x => mkMatch cfg x x)).map (fun m => |m.durationError|)).sum = 0 := by
    rw [List.map_map]
    apply List.sum_eq_zero
    intro q hq
    rw [List.mem_map] at hq
    obtain ⟨x, -, hx⟩ := hq
    rw [← hx]
    simp [Function.comp, mkMatch]
  rw [hsum]
  norm_num [clamp01]

theorem zip_self_map (l : List ℚ) : l.zip l = l.map (fun v => (v, v)) := by
  induction l with
  | nil => rfl
  | cons x xs ih => simp [ih]

theorem cosineSimilarity_self (a : List ℚ) (h : (a.map (fun v => v * v)).sum ≠ 0) :
    cosineSimilarity a a = 1 := by
  have hdot : ((a.zip a).map (fun p => p.1 * p.2)).sum = (a.map (fun v => v * v)).sum := by
    rw [zip_self_map, List.map_map]
    rfl
  have hna : 0 ≤ (a.map (fun v => v * v)).sum := by
    apply List.sum_nonneg
    intro x hx
    rw [List.mem_map] at hx
    obtain ⟨v, -, hv⟩ := hx
    rw [← hv]
    exact mul_self_nonneg v
  have hsqrt : Real.sqrt (((a.map (fun v => v * v)).sum : ℚ) : ℝ) *
      Real.sqrt (((a.map (fun v => v * v)).sum : ℚ) : ℝ) =
      (((a.map (fun v => v * v)).sum : ℚ) : ℝ) :=
    Real.mul_self_sqrt (by exact_mod_cast hna)
  have hne : (((a.map (fun v => v * v)).sum : ℚ) : ℝ) ≠ 0 := by exact_mod_cast h
  simp only [cosineSimilarity, min_self, List.take_length, hdot]
  rw [hsqrt, if_neg hne, div_self hne]
  norm_num [clamp01Real]

theorem pitchHistogram_sq_sum_ne_zero (L : List ProcessedNote) (h : L ≠ []) :
    ((pitchHistogram L).map (fun v => v * v)).sum ≠ 0 := by
  obtain ⟨n, L', rfl⟩ := List.exists_cons_of_ne_nil h
  have h2 : 0 ≤ n.note % 12 := Int.emod_nonneg _ (by norm_num)
  have h1 : n.note % 12 < 12 := Int.emod_lt_of_pos _ (by norm_num)
  have hi0lt : (n.note % 12).toNat < 12 := by omega
  have hv : ∃ v ∈ pitchHistogram (n :: L'), 1 ≤ v := by
    refine ⟨(((n :: L').filter
      (fun x => (x.note % 12).toNat == (n.note % 12).toNat)).length : ℚ), ?_, ?_⟩
    · rw [pitchHistogram]
      exact List.mem_map_of_mem _ (List.mem_range.mpr hi0lt)
    · have hnmem : n ∈ (n :: L').filter
          (fun x => (x.note % 12).toNat == (n.note % 12).toNat) := by
        apply List.mem_filter.mpr
        exact ⟨List.mem_cons_self n L', beq_self_eq_true _⟩
      have hlen : 0 < ((n :: L').filter
          (fun x => (x.note % 12).toNat == (n.note % 12).toNat)).length :=
        List.length_pos.mpr (List.ne_nil_of_mem hnmem)
      exact_mod_cast hlen
  obtain ⟨v, hvmem, hv1⟩ := hv
  have hvv : (1 : ℚ) ≤ v * v := by nlinarith
  have hnonneg : ∀ x ∈ (pitchHistogram (n :: L')).map (fun v => v * v), 0 ≤ x := by
    intro x hx
    rw [List.mem_map] at hx
    obtain ⟨w, -, hw⟩ := hx
    rw [← hw]
    exact mul_self_nonneg w
  have hsum : v * v ≤ ((pitchHistogram (n :: L')).map (fun v => v * v)).sum :=
    List.single_le_sum hnonneg _ (List.mem_map_of_mem _ hvmem)
  intro h0
  rw [h0] at hsum
  linarith

theorem foldl_min_le_init (l : List ℤ) (a : ℤ) : l.foldl min a ≤ a := by
  induction l generalizing a with
  | nil => exact le_refl a
  | cons x xs ih => exact le_trans (ih (min a x)) (min_le_left a x)

theorem foldl_min_le_mem {l : List ℤ} {x : ℤ} (hx : x ∈ l) (a : ℤ) : l.foldl min a ≤ x := by
  induction l generalizing a with
  | nil => cases hx
  | cons y ys ih =>
    rcases List.mem_cons.mp hx with h | h
    · subst h
      exact le_trans (foldl_min_le_init ys (min a x)) (min_le_right a x)
    · exact ih h (min a y)

theorem le_foldl_max_init (l : List ℤ) (a : ℤ) : a ≤ l.foldl max a := by
  induction l generalizing a with
  | nil => exact le_refl a
  | cons x xs ih => exact le_trans (le_max_left a x) (ih (max a x))

theorem le_foldl_max_mem {l : List ℤ} {x : ℤ} (hx : x ∈ l) (a : ℤ) : x ≤ l.foldl max a := by
  induction l generalizing a with
  | nil => cases hx
  | cons y ys ih =>
    rcases List.mem_cons.mp hx with h | h
    · subst h
      exact le_trans (le_max_right a x) (le_foldl_max_init ys (max a x))
    · exact ih h (max a y)

theorem listMinZ_le {l : List ℤ} {x : ℤ} (hx : x ∈ l) : listMinZ l ≤ x := by
  cases l with
  | nil => cases hx
  | cons y ys =>
    rcases List.mem_cons.mp hx with h | h
    · subst h
      exact foldl_min_le_init ys x
    · exact foldl_min_le_mem h y

theorem le_listMaxZ {l : List ℤ} {x : ℤ} (hx : x ∈ l) : x ≤ listMaxZ l := by
  cases l with
  | nil => cases hx
  | cons y ys =>
    rcases List.mem_cons.mp hx with h | h
    · subst h
      exact le_foldl_max_init ys x
    · exact le_foldl_max_mem h y

theorem foldl_min_all_eq (ys : List ℤ) (c : ℤ) (h : ∀ x ∈ ys, x = c) : ys.foldl min c = c := by
  induction ys with
  | nil => rfl
  | cons x xs ih =>
    rw [List.foldl_cons, h x (List.mem_cons_self x xs), min_self]
    exact ih (fun y hy => h y (List.mem_cons_of_mem x hy))

theorem foldl_max_all_eq (ys : List ℤ) (c : ℤ) (h : ∀ x ∈ ys, x = c) : ys.foldl max c = c := by
  induction ys with
  | nil => rfl
  | cons x xs ih =>
    rw [List.foldl_cons, h x (List.mem_cons_self x xs), max_self]
    exact ih (fun y hy => h y (List.mem_cons_of_mem x hy))

theorem listMinZ_all_eq {l : List ℤ} {c : ℤ} (h : ∀ x ∈ l, x = c) (hne : l ≠ []) :
    listMinZ l = c := by
  cases l with
  | nil => exact absurd rfl hne
  | cons y ys =>
    rw [listMinZ]
    rw [h y (List.mem_cons_self y ys)]
    exact foldl_min_all_eq ys c (fun x hx => h x (List.mem_cons_of_mem y hx))

theorem listMaxZ_all_eq {l : List ℤ} {c : ℤ} (h : ∀ x ∈ l, x = c) (hne : l ≠ []) :
    listMaxZ l = c := by
  cases l with
  | nil => exact absurd rfl hne
  | cons y ys =>
    rw [listMaxZ]
    rw [h y (List.mem_cons_self y ys)]
    exact foldl_max_all_eq ys c (fun x hx => h x (List.mem_cons_of_mem y hx))

theorem calculateRangeOverlap_self_const (L : List ProcessedNote) (hne : L ≠ [])
    (hall : ∀ x ∈ L, ∀ y ∈ L, x.note = y.note) :
    calculateRangeOverlap L L = 0 := by
  obtain ⟨n, L', rfl⟩ := List.exists_cons_of_ne_nil hne
  have hmapne : (n :: L').map (fun x => x.note) ≠ [] := by simp
  have hallc : ∀ z ∈ (n :: L').map (fun x => x.note), z = n.note := by
    intro z hz
    rw [List.mem_map] at hz
    obtain ⟨y, hy, hyz⟩ := hz
    rw [← hyz]
    exact hall y hy n (List.mem_cons_self n L')
  have hmin : listMinZ ((n :: L').map (fun x => x.note)) = n.note :=
    listMinZ_all_eq hallc hmapne
  have hmax : listMaxZ ((n :: L').map (fun x => x.note)) = n.note :=
    listMaxZ_all_eq hallc hmapne
  have hlen : ¬((n :: L').length = 0 ∨ (n :: L').length = 0) := by simp
  simp only [calculateRangeOverlap, if_neg hlen, hmin, hmax, min_self, max_self, sub_self]
  norm_num [clamp01]

theorem calculateRangeOverlap_self_spread (L : List ProcessedNote)
    (h : ∃ x ∈ L, ∃ y ∈ L, x.note ≠ y.note) :
    calculateRangeOverlap L L = 1 := by
  obtain ⟨x, hx, y, hy, hxy⟩ := h
  have hlenpos : L.length ≠ 0 := by
    intro h0
    rw [List.length_eq_zero.mp h0] at hx
    cases hx
  have hxm : x.note ∈ L.map (fun n => n.note) := List.mem_map_of_mem _ hx
  have hym : y.note ∈ L.map (fun n => n.note) := List.mem_map_of_mem _ hy
  have h1 : listMinZ (L.map (fun n => n.note)) ≤ x.note := listMinZ_le hxm
  have h2 : listMinZ (L.map (fun n => n.note)) ≤ y.note := listMinZ_le hym
  have h3 : x.note ≤ listMaxZ (L.map (fun n => n.note)) := le_listMaxZ hxm
  have h4 : y.note ≤ listMaxZ (L.map (fun n => n.note)) := le_listMaxZ hym
  have hlt : listMinZ (L.map (fun n => n.note)) < listMaxZ (L.map (fun n => n.note)) := by
    by_contra h5
    push_neg at h5
    exact hxy (le_antisymm (h3.trans (h5.trans h2)) (h4.trans (h5.trans h1)))
  have hlen : ¬(L.length = 0 ∨ L.length = 0) := by simp [hlenpos]
  have hd : (0 : ℤ) < listMaxZ (L.map (fun n => n.note)) - listMinZ (L.map (fun n => n.note)) := by
    omega
  have hdq : (0 : ℚ) <
      ((listMaxZ (L.map (fun n => n.note)) - listMinZ (L.map (fun n => n.note)) : ℤ) : ℚ) := by
    exact_mod_cast hd
  simp only [calculateRangeOverlap, if_neg hlen, min_self, max_self]
  rw [if_neg (by omega : ¬(listMaxZ (L.map (fun n => n.note)) -
    listMinZ (L.map (fun n => n.note)) = 0))]
  rw [max_eq_right (le_of_lt hdq)]
  rw [div_self (ne_of_gt hdq)]
  norm_num [clamp01]

/-- Claim C1 (amended): self-comparison of a decoded sequence (non-empty,
distinct note ids) with the default configuration matches every note and
gives noteAccuracy, precision, recall, timingAccuracy, velocityAccuracy,
durationAccuracy and pitchClassSimilarity all equal to 1; rangeOverlap is
0 when all pitches coincide and 1 when at least two pitches differ, so
rangeOverlap = 1 and overallScore = 1 do not hold in general. -/
theorem compareMidiData_self (d : ProcessedMidiData) (hne : d.notes ≠ [])
    (hnodup : (d.notes.map (fun n => n.id)).Nodup) :
    (compareMidiData d d defaultConfig).matchedCount = d.notes.length ∧
    (compareMidiData d d defaultConfig).unmatchedGenerated = 0 ∧
    (compareMidiData d d defaultConfig).unmatchedReference = 0 ∧
    (compareMidiData d d defaultConfig).noteAccuracy = 1 ∧
    (compareMidiData d d defaultConfig).«precision» = 1 ∧
    (compareMidiData d d defaultConfig).«recall» = 1 ∧
    (compareMidiData d d defaultConfig).timingAccuracy = 1 ∧
    (compareMidiData d d defaultConfig).velocityAccuracy = 1 ∧
    (compareMidiData d d defaultConfig).durationAccuracy = 1 ∧
    (compareMidiData d d defaultConfig).pitchClassSimilarity = 1 ∧
    ((∀ x ∈ d.notes, ∀ y ∈ d.notes, x.note = y.note) →
      (compareMidiData d d defaultConfig).rangeOverlap = 0) ∧
    ((∃ x ∈ d.notes, ∃ y ∈ d.notes, x.note ≠ y.note) →
      (compareMidiData d d defaultConfig).rangeOverlap = 1) := by
  have hperm := sortNotes_perm d.notes
  have hLlen : (sortNotes d.notes).length = d.notes.length := sortNotes_length d.notes
  have hLne : sortNotes d.notes ≠ [] := by
    intro h0
    apply hne
    apply List.length_eq_zero.mp
    rw [← hLlen, h0]
    rfl
  have hL0 : ¬((sortNotes d.notes).length = 0) :=
    fun h0 => hLne (List.length_eq_zero.mp h0)
  have hL0Q : ((sortNotes d.notes).length : ℚ) ≠ 0 := by exact_mod_cast hL0
  have hLnodup : ((sortNotes d.notes).map (fun n => n.id)).Nodup :=
    ((hperm.map (fun n => n.id)).nodup_iff).mpr hnodup
  have hmr : matchNotes defaultConfig (sortNotes d.notes) (sortNotes d.notes) =
      ⟨(sortNotes d.notes).map (fun x => mkMatch defaultConfig x x), [], []⟩ :=
    matchNotes_self defaultConfig (sortNotes d.notes)
      (by norm_num [defaultConfig]) (by norm_num [defaultConfig]) hLnodup
  have ht := calculateTimingAccuracy_self defaultConfig (sortNotes d.notes) hLne
  have hv := calculateVelocityAccuracy_self defaultConfig (sortNotes d.notes) hLne
  have hd := calculateDurationAccuracy_self defaultConfig (sortNotes d.notes) hLne
  have hpc : calculatePitchClassSimilarity (sortNotes d.notes) (sortNotes d.notes) = 1 := by
    unfold calculatePitchClassSimilarity
    exact cosineSimilarity_self _ (pitchHistogram_sq_sum_ne_zero _ hLne)
  have hprec : (((sortNotes d.notes).map
        (fun x => mkMatch defaultConfig x x)).length : ℚ) /
      (if (sortNotes d.notes).length = 0 then 1 else ((sortNotes d.notes).length : ℚ)) = 1 := by
    rw [List.length_map, if_neg hL0, div_self hL0Q]
  refine ⟨?_, ?_, ?_, ?_, ?_, ?_, ?_, ?_, ?_, ?_, ?_, ?_⟩
  · simp only [compareMidiData, hmr]
    rw [List.length_map, hLlen]
  · simp only [compareMidiData, hmr]
    rfl
  · simp only [compareMidiData, hmr]
    rfl
  · simp only [compareMidiData, hmr, hprec]
    norm_num
  · simp only [compareMidiData, hmr, hprec]
  · simp only [compareMidiData, hmr, hprec]
  · simp only [compareMidiData, hmr, ht]
  · simp only [compareMidiData, hmr, hv]
  · simp only [compareMidiData, hmr, hd]
  · simp only [compareMidiData, hmr, hpc]
  · intro hall
    simp only [compareMidiData]
    apply calculateRangeOverlap_self_const _ hLne
    intro x hx y hy
    exact hall x (hperm.mem_iff.mp hx) y (hperm.mem_iff.mp hy)
  · intro hex
    obtain ⟨x, hx, y, hy, hxy⟩ := hex
    simp only [compareMidiData]
    apply calculateRangeOverlap_self_spread
    exact ⟨x, hperm.mem_iff.mpr hx, y, hperm.mem_iff.mpr hy, hxy⟩

/-- Counterexample to C1 as stated: for the one-note sequence, self-
comparison with the default configuration yields rangeOverlap 0 (the
pitch range is a single point, so the guarded union falls back to 1 and
the intersection is empty) and overallScore 17/20 (rhythmAccuracy is 0
with fewer than three matches and carries weight 0.15), not 1. -/
theorem compareMidiData_self_counterexample :
    (compareMidiData singleNoteData singleNoteData defaultConfig).rangeOverlap = 0 ∧
    (compareMidiData singleNoteData singleNoteData defaultConfig).overallScore = 17/20 := by
  have hn : singleNoteData.notes = [noteG] := rfl
  have hnodup : (([noteG]).map (fun n => n.id)).Nodup := by decide
  have hne : ([noteG] : List ProcessedNote) ≠ [] := by decide
  have hmr : matchNotes defaultConfig [noteG] [noteG] =
      ⟨[mkMatch defaultConfig noteG noteG], [], []⟩ := by
    have h1 := matchNotes_self defaultConfig [noteG]
      (by norm_num [defaultConfig]) (by norm_num [defaultConfig]) hnodup
    simpa using h1
  have hro : calculateRangeOverlap [noteG] [noteG] = 0 := by
    apply calculateRangeOverlap_self_const [noteG] hne
    intro x hx y hy
    rw [List.mem_singleton] at hx hy
    rw [hx, hy]
  have hrh : calculateRhythmAccuracy [mkMatch defaultConfig noteG noteG] = 0 := by
    norm_num [calculateRhythmAccuracy]
  have ht : calculateTimingAccuracy defaultConfig [mkMatch defaultConfig noteG noteG] = 1 := by
    have h1 := calculateTimingAccuracy_self defaultConfig [noteG] hne
    simpa using h1
  have hv : calculateVelocityAccuracy [mkMatch defaultConfig noteG noteG] = 1 := by
    have h1 := calculateVelocityAccuracy_self defaultConfig [noteG] hne
    simpa using h1
  have hd : calculateDurationAccuracy [mkMatch defaultConfig noteG noteG] = 1 := by
    have h1 := calculateDurationAccuracy_self defaultConfig [noteG] hne
    simpa using h1
  have hpc : calculatePitchClassSimilarity [noteG] [noteG] = 1 := by
    unfold calculatePitchClassSimilarity
    exact cosineSimilarity_self _ (pitchHistogram_sq_sum_ne_zero _ hne)
  have hds : calculateDensitySimilarity [noteG] [noteG]
      (max singleNoteData.duration singleNoteData.duration)
      defaultConfig.densityWindowSec = 1 := by
    norm_num [calculateDensitySimilarity, densitySeries, binCount, densityIdx,
      sequenceSimilarity, clamp01, Nat.ceil_eq_iff, List.range_succ, noteG, mkTestNote,
      singleNoteData, mkTestData, defaultConfig]
  have hps : calculatePolyphonySimilarity [noteG] [noteG]
      (max singleNoteData.duration singleNoteData.duration)
      defaultConfig.polyphonyWindowSec = 1 := by
    norm_num [calculatePolyphonySimilarity, polyphonySeries, binCount,
      sequenceSimilarity, clamp01, Nat.ceil_eq_iff, List.range_succ, noteG, mkTestNote,
      singleNoteData, mkTestData, defaultConfig]
  have hprec : ((([noteG] : List ProcessedNote).map
        (fun x => mkMatch defaultConfig x x)).length : ℚ) /
      (if ([noteG] : List ProcessedNote).length = 0 then 1
        else (([noteG] : List ProcessedNote).length : ℚ)) = 1 := by
    norm_num
  constructor
  · simp only [compareMidiData, hn, sortNotes_single, hro]
  · simp only [compareMidiData, hn, sortNotes_single, hmr, hprec, ht, hv, hd, hpc, hrh,
      hds, hps, hro]
    norm_num [weightedAverage, defaultConfig]

/-- Witness for the amended C1 at a concrete two-pitch input. -/
theorem compareMidiData_self_witness :
    twoNoteData.notes ≠ [] ∧ (twoNoteData.notes.map (fun n => n.id)).Nodup ∧
    (compareMidiData twoNoteData twoNoteData defaultConfig).noteAccuracy = 1 :=
  ⟨by decide, by decide,
    (compareMidiData_self twoNoteData (by decide) (by decide)).2.2.2.1⟩

theorem clamp01_nonneg (x : ℚ) : 0 ≤ clamp01 x := le_max_left 0 _

theorem clamp01_le_one (x : ℚ) : clamp01 x ≤ 1 :=
  max_le (by norm_num) (min_le_left 1 x)

theorem clamp01Real_nonneg (x : ℝ) : 0 ≤ clamp01Real x := le_max_left 0 _

theorem clamp01Real_le_one (x : ℝ) : clamp01Real x ≤ 1 :=
  max_le (by norm_num) (min_le_left 1 x)

theorem calculateTimingAccuracy_mem (cfg : ComparisonConfig) (ms : List NoteMatch) :
    0 ≤ calculateTimingAccuracy cfg ms ∧ calculateTimingAccuracy cfg ms ≤ 1 := by
  unfold calculateTimingAccuracy
  split
  · norm_num
  · exact ⟨clamp01_nonneg _, clamp01_le_one _⟩

theorem calculateVelocityAccuracy_mem (ms : List NoteMatch) :
    0 ≤ calculateVelocityAccuracy ms ∧ calculateVelocityAccuracy ms ≤ 1 := by
  unfold calculateVelocityAccuracy
  split
  · norm_num
  · exact ⟨clamp01_nonneg _, clamp01_le_one _⟩

theorem calculateDurationAccuracy_mem (ms : List NoteMatch) :
    0 ≤ calculateDurationAccuracy ms ∧ calculateDurationAccuracy ms ≤ 1 := by
  unfold calculateDurationAccuracy
  dsimp only
  split
  · norm_num
  · exact ⟨clamp01_nonneg _, clamp01_le_one _⟩

theorem calculateRhythmAccuracy_mem (ms : List NoteMatch) :
    0 ≤ calculateRhythmAccuracy ms ∧ calculateRhythmAccuracy ms ≤ 1 := by
  unfold calculateRhythmAccuracy
  split
  · norm_num
  · dsimp only
    split
    · norm_num
    · exact ⟨clamp01Real_nonneg _, clamp01Real_le_one _⟩

theorem cosineSimilarity_mem (a b : List ℚ) :
    0 ≤ cosineSimilarity a b ∧ cosineSimilarity a b ≤ 1 :=
  ⟨clamp01Real_nonneg _, clamp01Real_le_one _⟩

theorem sequenceSimilarity_mem (a b : List ℕ) :
    0 ≤ sequenceSimilarity a b ∧ sequenceSimilarity a b ≤ 1 := by
  unfold sequenceSimilarity
  dsimp only
  split
  · norm_num
  · exact ⟨clamp01_nonneg _, clamp01_le_one _⟩

theorem calculateDensitySimilarity_mem (a b : List ProcessedNote) (duration windowSec : ℚ) :
    0 ≤ calculateDensitySimilarity a b duration windowSec ∧
      calculateDensitySimilarity a b duration windowSec ≤ 1 := by
  unfold calculateDensitySimilarity
  split
  · norm_num
  · exact sequenceSimilarity_mem _ _

theorem calculatePolyphonySimilarity_mem (a b : List ProcessedNote) (duration windowSec : ℚ) :
    0 ≤ calculatePolyphonySimilarity a b duration windowSec ∧
      calculatePolyphonySimilarity a b duration windowSec ≤ 1 := by
  unfold calculatePolyphonySimilarity
  split
  · norm_num
  · exact sequenceSimilarity_mem _ _

theorem calculateRangeOverlap_mem (a b : List ProcessedNote) :
    0 ≤ calculateRangeOverlap a b ∧ calculateRangeOverlap a b ≤ 1 := by
  unfold calculateRangeOverlap
  split
  · norm_num
  · exact ⟨clamp01_nonneg _, clamp01_le_one _⟩

theorem weightedAverage_eq (v : MetricValues) (w : OverallWeights)
    (hw : 0 ≤ w.noteAccuracy ∧ 0 ≤ w.timingAccuracy ∧ 0 ≤ w.rhythmAccuracy ∧
      0 ≤ w.velocityAccuracy ∧ 0 ≤ w.durationAccuracy ∧ 0 ≤ w.pitchClassSimilarity ∧
      0 ≤ w.densitySimilarity ∧ 0 ≤ w.polyphonySimilarity ∧ 0 ≤ w.rangeOverlap) :
    weightedAverage v w =
      ((v.noteAccuracy : ℝ) * (w.noteAccuracy : ℝ) +
        (v.timingAccuracy : ℝ) * (w.timingAccuracy : ℝ) +
        v.rhythmAccuracy * (w.rhythmAccuracy : ℝ) +
        (v.velocityAccuracy : ℝ) * (w.velocityAccuracy : ℝ) +
        (v.durationAccuracy : ℝ) * (w.durationAccuracy : ℝ) +
        v.pitchClassSimilarity * (w.pitchClassSimilarity : ℝ) +
        (v.densitySimilarity : ℝ) * (w.densitySimilarity : ℝ) +
        (v.polyphonySimilarity : ℝ) * (w.polyphonySimilarity : ℝ) +
        (v.rangeOverlap : ℝ) * (w.rangeOverlap : ℝ)) /
      ((w.noteAccuracy + w.timingAccuracy + w.rhythmAccuracy + w.velocityAccuracy +
        w.durationAccuracy + w.pitchClassSimilarity + w.densitySimilarity +
        w.polyphonySimilarity + w.rangeOverlap : ℚ) : ℝ) := by
  obtain ⟨h1, h2, h3, h4, h5, h6, h7, h8, h9⟩ := hw
  unfold weightedAverage
  dsimp only
  split
  · rfl
  · rename_i h
    push_neg at h
    have h0 : w.noteAccuracy + w.timingAccuracy + w.rhythmAccuracy + w.velocityAccuracy +
        w.durationAccuracy + w.pitchClassSimilarity + w.densitySimilarity +
        w.polyphonySimilarity + w.rangeOverlap = 0 := by linarith
    rw [h0]
    simp

theorem weightedAverage_mem (v : MetricValues) (w : OverallWeights)
    (hw : 0 ≤ w.noteAccuracy ∧ 0 ≤ w.timingAccuracy ∧ 0 ≤ w.rhythmAccuracy ∧
      0 ≤ w.velocityAccuracy ∧ 0 ≤ w.durationAccuracy ∧ 0 ≤ w.pitchClassSimilarity ∧
      0 ≤ w.densitySimilarity ∧ 0 ≤ w.polyphonySimilarity ∧ 0 ≤ w.rangeOverlap)
    (hv1 : 0 ≤ v.noteAccuracy ∧ v.noteAccuracy ≤ 1)
    (hv2 : 0 ≤ v.timingAccuracy ∧ v.timingAccuracy ≤ 1)
    (hv3 : 0 ≤ v.rhythmAccuracy ∧ v.rhythmAccuracy ≤ 1)
    (hv4 : 0 ≤ v.velocityAccuracy ∧ v.velocityAccuracy ≤ 1)
    (hv5 : 0 ≤ v.durationAccuracy ∧ v.durationAccuracy ≤ 1)
    (hv6 : 0 ≤ v.pitchClassSimilarity ∧ v.pitchClassSimilarity ≤ 1)
    (hv7 : 0 ≤ v.densitySimilarity ∧ v.densitySimilarity ≤ 1)
    (hv8 : 0 ≤ v.polyphonySimilarity ∧ v.polyphonySimilarity ≤ 1)
    (hv9 : 0 ≤ v.rangeOverlap ∧ v.rangeOverlap ≤ 1) :
    0 ≤ weightedAverage v w ∧ weightedAverage v w ≤ 1 := by
  obtain ⟨h1, h2, h3, h4, h5, h6, h7, h8, h9⟩ := hw
  have w1 : (0:ℝ) ≤ (w.noteAccuracy : ℝ) := by exact_mod_cast h1
  have w2 : (0:ℝ) ≤ (w.timingAccuracy : ℝ) := by exact_mod_cast h2
  have w3 : (0:ℝ) ≤ (w.rhythmAccuracy : ℝ) := by exact_mod_cast h3
  have w4 : (0:ℝ) ≤ (w.velocityAccuracy : ℝ) := by exact_mod_cast h4
  have w5 : (0:ℝ) ≤ (w.durationAccuracy : ℝ) := by exact_mod_cast h5
  have w6 : (0:ℝ) ≤ (w.pitchClassSimilarity : ℝ) := by exact_mod_cast h6
  have w7 : (0:ℝ) ≤ (w.densitySimilarity : ℝ) := by exact_mod_cast h7
  have w8 : (0:ℝ) ≤ (w.polyphonySimilarity : ℝ) := by exact_mod_cast h8
  have w9 : (0:ℝ) ≤ (w.rangeOverlap : ℝ) := by exact_mod_cast h9
  have t1 : 0 ≤ (v.noteAccuracy : ℝ) * (w.noteAccuracy : ℝ) ∧
      (v.noteAccuracy : ℝ) * (w.noteAccuracy : ℝ) ≤ (w.noteAccuracy : ℝ) :=
    ⟨mul_nonneg (by exact_mod_cast hv1.1) w1,
      mul_le_of_le_one_left w1 (by exact_mod_cast hv1.2)⟩
  have t2 : 0 ≤ (v.timingAccuracy : ℝ) * (w.timingAccuracy : ℝ) ∧
      (v.timingAccuracy : ℝ) * (w.timingAccuracy : ℝ) ≤ (w.timingAccuracy : ℝ) :=
    ⟨mul_nonneg (by exact_mod_cast hv2.1) w2,
      mul_le_of_le_one_left w2 (by exact_mod_cast hv2.2)⟩
  have t3 : 0 ≤ v.rhythmAccuracy * (w.rhythmAccuracy : ℝ) ∧
      v.rhythmAccuracy * (w.rhythmAccuracy : ℝ) ≤ (w.rhythmAccuracy : ℝ) :=
    ⟨mul_nonneg hv3.1 w3, mul_le_of_le_one_left w3 hv3.2⟩
  have t4 : 0 ≤ (v.velocityAccuracy : ℝ) * (w.velocityAccuracy : ℝ) ∧
      (v.velocityAccuracy : ℝ) * (w.velocityAccuracy : ℝ) ≤ (w.velocityAccuracy : ℝ) :=
    ⟨mul_nonneg (by exact_mod_cast hv4.1) w4,
      mul_le_of_le_one_left w4 (by exact_mod_cast hv4.2)⟩
  have t5 : 0 ≤ (v.durationAccuracy : ℝ) * (w.durationAccuracy : ℝ) ∧
      (v.durationAccuracy : ℝ) * (w.durationAccuracy : ℝ) ≤ (w.durationAccuracy : ℝ) :=
    ⟨mul_nonneg (by exact_mod_cast hv5.1) w5,
      mul_le_of_le_one_left w5 (by exact_mod_cast hv5.2)⟩
  have t6 : 0 ≤ v.pitchClassSimilarity * (w.pitchClassSimilarity : ℝ) ∧
      v.pitchClassSimilarity * (w.pitchClassSimilarity : ℝ) ≤ (w.pitchClassSimilarity : ℝ) :=
    ⟨mul_nonneg hv6.1 w6, mul_le_of_le_one_left w6 hv6.2⟩
  have t7 : 0 ≤ (v.densitySimilarity : ℝ) * (w.densitySimilarity : ℝ) ∧
      (v.densitySimilarity : ℝ) * (w.densitySimilarity : ℝ) ≤ (w.densitySimilarity : ℝ) :=
    ⟨mul_nonneg (by exact_mod_cast hv7.1) w7,
      mul_le_of_le_one_left w7 (by exact_mod_cast hv7.2)⟩
  have t8 : 0 ≤ (v.polyphonySimilarity : ℝ) * (w.polyphonySimilarity : ℝ) ∧
      (v.polyphonySimilarity : ℝ) * (w.polyphonySimilarity : ℝ) ≤ (w.polyphonySimilarity : ℝ) :=
    ⟨mul_nonneg (by exact_mod_cast hv8.1) w8,
      mul_le_of_le_one_left w8 (by exact_mod_cast hv8.2)⟩
  have t9 : 0 ≤ (v.rangeOverlap : ℝ) * (w.rangeOverlap : ℝ) ∧
      (v.rangeOverlap : ℝ) * (w.rangeOverlap : ℝ) ≤ (w.rangeOverlap : ℝ) :=
    ⟨mul_nonneg (by exact_mod_cast hv9.1) w9,
      mul_le_of_le_one_left w9 (by exact_mod_cast hv9.2)⟩
  unfold weightedAverage
  dsimp only
  split
  · rename_i h
    have hpos : (0:ℝ) < ((w.noteAccuracy + w.timingAccuracy + w.rhythmAccuracy +
        w.velocityAccuracy + w.durationAccuracy + w.pitchClassSimilarity +
        w.densitySimilarity + w.polyphonySimilarity + w.rangeOverlap : ℚ) : ℝ) := by
      exact_mod_cast h
    constructor
    · apply div_nonneg _ (le_of_lt hpos)
      linarith [t1.1, t2.1, t3.1, t4.1, t5.1, t6.1, t7.1, t8.1, t9.1]
    · rw [div_le_one hpos]
      push_cast
      linarith [t1.2, t2.2, t3.2, t4.2, t5.2, t6.2, t7.2, t8.2, t9.2]
  · norm_num

theorem ratio_mem (mlen n : ℕ) (hle : mlen ≤ n) :
    0 ≤ (mlen : ℚ) / (if n = 0 then 1 else (n : ℚ)) ∧
      (mlen : ℚ) / (if n = 0 then 1 else (n : ℚ)) ≤ 1 := by
  split
  · rename_i h
    have h0 : mlen = 0 := Nat.le_zero.mp (h ▸ hle)
    rw [h0]
    norm_num
  · rename_i h
    have hn : (0:ℚ) < (n : ℚ) := by exact_mod_cast Nat.pos_of_ne_zero h
    constructor
    · positivity
    · rw [div_le_one hn]
      exact_mod_cast hle

theorem f1_mem {p r : ℚ} (hp : 0 ≤ p ∧ p ≤ 1) (hr : 0 ≤ r ∧ r ≤ 1) :
    0 ≤ (if p + r = 0 then 0 else 2 * p * r / (p + r)) ∧
      (if p + r = 0 then 0 else 2 * p * r / (p + r)) ≤ 1 := by
  split
  · norm_num
  · rename_i h
    have hpr : 0 < p + r := lt_of_le_of_ne (add_nonneg hp.1 hr.1) (Ne.symm h)
    constructor
    · exact div_nonneg (by nlinarith [hp.1, hr.1]) (le_of_lt hpr)
    · rw [div_le_one hpr]
      nlinarith [hp.1, hp.2, hr.1, hr.2]

/-- Claim C3: under a valid configuration (positive timing tolerance,
non-negative pitch tolerance and non-negative overall weights), every
sub-metric and the overall score of `compareMidiData` lie in [0,1], and
the overall score is the weight-normalized sum of the nine weighted
metrics over the weight map. -/
theorem compareMidiData_bounds (g r : ProcessedMidiData) (cfg : ComparisonConfig)
    (hcfg : validConfig cfg) :
    (0 ≤ (compareMidiData g r cfg).«precision» ∧ (compareMidiData g r cfg).«precision» ≤ 1) ∧
    (0 ≤ (compareMidiData g r cfg).«recall» ∧ (compareMidiData g r cfg).«recall» ≤ 1) ∧
    (0 ≤ (compareMidiData g r cfg).noteAccuracy ∧ (compareMidiData g r cfg).noteAccuracy ≤ 1) ∧
    (0 ≤ (compareMidiData g r cfg).timingAccuracy ∧
      (compareMidiData g r cfg).timingAccuracy ≤ 1) ∧
    (0 ≤ (compareMidiData g r cfg).rhythmAccuracy ∧
      (compareMidiData g r cfg).rhythmAccuracy ≤ 1) ∧
    (0 ≤ (compareMidiData g r cfg).velocityAccuracy ∧
      (compareMidiData g r cfg).velocityAccuracy ≤ 1) ∧
    (0 ≤ (compareMidiData g r cfg).durationAccuracy ∧
      (compareMidiData g r cfg).durationAccuracy ≤ 1) ∧
    (0 ≤ (compareMidiData g r cfg).pitchClassSimilarity ∧
      (compareMidiData g r cfg).pitchClassSimilarity ≤ 1) ∧
    (0 ≤ (compareMidiData g r cfg).densitySimilarity ∧
      (compareMidiData g r cfg).densitySimilarity ≤ 1) ∧
    (0 ≤ (compareMidiData g r cfg).polyphonySimilarity ∧
      (compareMidiData g r cfg).polyphonySimilarity ≤ 1) ∧
    (0 ≤ (compareMidiData g r cfg).rangeOverlap ∧ (compareMidiData g r cfg).rangeOverlap ≤ 1) ∧
    (0 ≤ (compareMidiData g r cfg).overallScore ∧ (compareMidiData g r cfg).overallScore ≤ 1) ∧
    (compareMidiData g r cfg).overallScore =
      (((compareMidiData g r cfg).noteAccuracy : ℝ) * (cfg.overallWeights.noteAccuracy : ℝ) +
        ((compareMidiData g r cfg).timingAccuracy : ℝ) * (cfg.overallWeights.timingAccuracy : ℝ) +
        (compareMidiData g r cfg).rhythmAccuracy * (cfg.overallWeights.rhythmAccuracy : ℝ) +
        ((compareMidiData g r cfg).velocityAccuracy : ℝ) *
          (cfg.overallWeights.velocityAccuracy : ℝ) +
        ((compareMidiData g r cfg).durationAccuracy : ℝ) *
          (cfg.overallWeights.durationAccuracy : ℝ) +
        (compareMidiData g r cfg).pitchClassSimilarity *
          (cfg.overallWeights.pitchClassSimilarity : ℝ) +
        ((compareMidiData g r cfg).densitySimilarity : ℝ) *
          (cfg.overallWeights.densitySimilarity : ℝ) +
        ((compareMidiData g r cfg).polyphonySimilarity : ℝ) *
          (cfg.overallWeights.polyphonySimilarity : ℝ) +
        ((compareMidiData g r cfg).rangeOverlap : ℝ) * (cfg.overallWeights.rangeOverlap : ℝ)) /
      ((cfg.overallWeights.noteAccuracy + cfg.overallWeights.timingAccuracy +
        cfg.overallWeights.rhythmAccuracy + cfg.overallWeights.velocityAccuracy +
        cfg.overallWeights.durationAccuracy + cfg.overallWeights.pitchClassSimilarity +
        cfg.overallWeights.densitySimilarity + cfg.overallWeights.polyphonySimilarity +
        cfg.overallWeights.rangeOverlap : ℚ) : ℝ) := by
  obtain ⟨htol, hptol, hw1, hw2, hw3, hw4, hw5, hw6, hw7, hw8, hw9⟩ := hcfg
  have hwAll : 0 ≤ cfg.overallWeights.noteAccuracy ∧ 0 ≤ cfg.overallWeights.timingAccuracy ∧
      0 ≤ cfg.overallWeights.rhythmAccuracy ∧ 0 ≤ cfg.overallWeights.velocityAccuracy ∧
      0 ≤ cfg.overallWeights.durationAccuracy ∧ 0 ≤ cfg.overallWeights.pitchClassSimilarity ∧
      0 ≤ cfg.overallWeights.densitySimilarity ∧ 0 ≤ cfg.overallWeights.polyphonySimilarity ∧
      0 ≤ cfg.overallWeights.rangeOverlap :=
    ⟨hw1, hw2, hw3, hw4, hw5, hw6, hw7, hw8, hw9⟩
  have hmeq : (matchNotes cfg (sortNotes g.notes) (sortNotes r.notes)).«matches» =
      matchNotesGo cfg (sortNotes r.notes) (sortNotes g.notes) [] := rfl
  have hmlen_gen : (matchNotes cfg (sortNotes g.notes) (sortNotes r.notes)).«matches».length ≤
      (sortNotes g.notes).length := by
    rw [hmeq]
    exact matchNotesGo_length_le cfg (sortNotes r.notes) (sortNotes g.notes) []
  have hmlen_ref : (matchNotes cfg (sortNotes g.notes) (sortNotes r.notes)).«matches».length ≤
      (sortNotes r.notes).length := by
    rw [hmeq]
    exact matchNotesGo_le_ref cfg (sortNotes r.notes) (sortNotes g.notes) []
  have hprec := ratio_mem _ _ hmlen_gen
  have hrec := ratio_mem _ _ hmlen_ref
  have hf1 := f1_mem hprec hrec
  have hta := calculateTimingAccuracy_mem cfg
    (matchNotes cfg (sortNotes g.notes) (sortNotes r.notes)).«matches»
  have hra := calculateRhythmAccuracy_mem
    (matchNotes cfg (sortNotes g.notes) (sortNotes r.notes)).«matches»
  have hva := calculateVelocityAccuracy_mem
    (matchNotes cfg (sortNotes g.notes) (sortNotes r.notes)).«matches»
  have hda := calculateDurationAccuracy_mem
    (matchNotes cfg (sortNotes g.notes) (sortNotes r.notes)).«matches»
  have hpcm := cosineSimilarity_mem (pitchHistogram (sortNotes g.notes))
    (pitchHistogram (sortNotes r.notes))
  have hdsm := calculateDensitySimilarity_mem (sortNotes g.notes) (sortNotes r.notes)
    (max g.duration r.duration) cfg.densityWindowSec
  have hpsm := calculatePolyphonySimilarity_mem (sortNotes g.notes) (sortNotes r.notes)
    (max g.duration r.duration) cfg.polyphonyWindowSec
  have hrom := calculateRangeOverlap_mem (sortNotes g.notes) (sortNotes r.notes)
  refine ⟨?_, ?_, ?_, ?_, ?_, ?_, ?_, ?_, ?_, ?_, ?_, ?_, ?_⟩
  · simp only [compareMidiData]
    exact hprec
  · simp only [compareMidiData]
    exact hrec
  · simp only [compareMidiData]
    exact hf1
  · simp only [compareMidiData]
    exact hta
  · simp only [compareMidiData]
    exact hra
  · simp only [compareMidiData]
    exact hva
  · simp only [compareMidiData]
    exact hda
  · simp only [compareMidiData, calculatePitchClassSimilarity]
    exact hpcm
  · simp only [compareMidiData]
    exact hdsm
  · simp only [compareMidiData]
    exact hpsm
  · simp only [compareMidiData]
    exact hrom
  · simp only [compareMidiData]
    exact weightedAverage_mem _ _ hwAll hf1 hta hra hva hda
      (by simpa [calculatePitchClassSimilarity] using hpcm) hdsm hpsm hrom
  · simp only [compareMidiData]
    exact weightedAverage_eq _ _ hwAll

/-- Witness for C3 at the concrete scenario inputs under the default
configuration. -/
theorem compareMidiData_bounds_witness :
    validConfig defaultConfig ∧
    (0 ≤ (compareMidiData genScenario refScenario defaultConfig).«precision» ∧
      (compareMidiData genScenario refScenario defaultConfig).«precision» ≤ 1) :=
  ⟨by norm_num [validConfig, defaultConfig],
    (compareMidiData_bounds genScenario refScenario defaultConfig
      (by norm_num [validConfig, defaultConfig])).1⟩

/-- Claim C4 (amended): the decoder concatenates per-track note lists in
track order with no global sort, so the flat notes list is chronological
for a single-track input whose track notes are time-ordered, but not in
general for multi-track files. -/
theorem processMidi_single_track_sorted (m : ToneMidi) (t : ToneTrack)
    (htr : m.tracks = [t])
    (hsorted : List.Pairwise (fun a b : ToneNote => a.time ≤ b.time) t.notes) :
    Chronological (processMidi m).notes := by
  have h1 : (processMidi m).notes = processTrack 0 t := by
    simp [processMidi, htr]
  rw [h1]
  unfold Chronological processTrack
  rw [List.pairwise_map]
  have h2 : List.Pairwise (fun p q : ℕ × ToneNote => p.2.time ≤ q.2.time) t.notes.enum := by
    have h3 : t.notes.enum.map Prod.snd = t.notes := List.enum_map_snd t.notes
    have h4 := hsorted
    rw [← h3, List.pairwise_map] at h4
    exact h4
  exact h2.imp (fun h => h)

/-- Witness for the amended C4 at a concrete sorted single-track input. -/
theorem processMidi_single_track_sorted_witness :
    oneTrackMidi.tracks = [oneTrack] ∧
    List.Pairwise (fun a b : ToneNote => a.time ≤ b.time) oneTrack.notes ∧
    Chronological (processMidi oneTrackMidi).notes :=
  ⟨rfl, by norm_num [oneTrack, List.pairwise_cons],
    processMidi_single_track_sorted oneTrackMidi oneTrack rfl
      (by norm_num [oneTrack, List.pairwise_cons])⟩

/-- Counterexample to C4 as stated: for a two-track input whose second
track starts earlier, the decoder's flat notes list is track-major, not
chronological by startTime. -/
theorem processMidi_not_chronological :
    ¬ Chronological (processMidi twoTrackMidi).notes := by
  intro h
  have h2 : List.Pairwise (fun a b : ℚ => a ≤ b)
      ((processMidi twoTrackMidi).notes.map (fun n => n.startTime)) :=
    List.Pairwise.map _ (fun a b hab => hab) h
  have hn : (processMidi twoTrackMidi).notes.map (fun n => n.startTime) = [1, 0] := by
    norm_num [processMidi, processTrack, processNote, twoTrackMidi, List.enum, List.enumFrom]
  rw [hn] at h2
  rw [List.pairwise_cons] at h2
  have := h2.1 0 (List.mem_singleton_self 0)
  norm_num at this

/-- Claim C7: an input that already has the normalized note-set shape
(`notes` and `tracks` arrays) is returned unchanged by `parseMidiData`,
without re-parsing. -/
theorem parseMidiData_passthrough (d : ProcessedMidiData) :
    parseMidiData (MidiInput.processed d) = Except.ok d := rfl

/-- Claim C10: for pitches 12..127 the name/number round trip is the
identity, while for pitches 0..11 `getNoteName` emits octave -1 (for
example C-1), whose name `getMidiNote` rejects because its pattern only
accepts non-negative octave digits. -/
theorem noteName_roundTrip :
    (∀ p : ℕ, 12 ≤ p → p ≤ 127 → getMidiNote (getNoteName p) = some p) ∧
    (∀ p : ℕ, p ≤ 11 → getMidiNote (getNoteName p) = none) := by
  constructor
  · intro p h1 h2
    have hall : ∀ q : Fin 128, 12 ≤ q.val → getMidiNote (getNoteName q.val) = some q.val := by
      decide
    exact hall ⟨p, by omega⟩ h1
  · intro p hp
    have hall : ∀ q : Fin 12, getMidiNote (getNoteName q.val) = none := by decide
    exact hall ⟨p, by omega⟩

/-- Witness for C10 at concrete pitches 60 and 0. -/
theorem noteName_roundTrip_witness :
    (12 ≤ 60 ∧ 60 ≤ 127 ∧ getMidiNote (getNoteName 60) = some 60) ∧
    (0 ≤ 11 ∧ getMidiNote (getNoteName 0) = none) :=
  ⟨⟨by norm_num, by norm_num, noteName_roundTrip.1 60 (by norm_num) (by norm_num)⟩,
    ⟨by norm_num, noteName_roundTrip.2 0 (by norm_num)⟩⟩
